import Mathlib

/-!
# node-zookeeper: the session bridge of `src/node-zk.cpp`

A shallow embedding of the native binding `src/node-zk.cpp` and theorems about it.

Conventions of the embedding

* A JavaScript string is the list of its code units, one `Char` each.  A
  `NanAsciiString` keeps one byte per unit, its low eight bits (`NanAsciiString`), and
  the C `char` holding that byte is signed (`charValue`): for the ASCII range (codes
  below 128) the value is the code.
* An `unsigned char` is a `Nat`, reduced `% 256` where the C code converts to it.
* C `int`, `int32_t` and `int64_t` values are `Int`.
* A pointer that may be `NULL` is an `Option`.
* Calls into the ZooKeeper C client, into libuv and into the JavaScript runtime are
  recorded, in order, in the `log` field of the session (`Effect`).  What those
  collaborators answer (the handle returned by `zookeeper_init`, the interest
  reported by `zookeeper_interest`, the clock `uv_now`, the watcher events
  delivered during `zookeeper_process`) is an explicit argument of the embedded
  function.
-/

namespace NodeZk

/-! ## Hexadecimal helpers (node-zk.cpp, lines 18-41) -/

/-- The constant `ZOOKEEPER_PASSWORD_BYTE_COUNT`. -/
def ZOOKEEPER_PASSWORD_BYTE_COUNT : Nat := 16

/-- The function `fourBitsToHex`: `(c <= 9) ? ('0' + c) : ('7' + c)`, with `'0'` = 48 and
`'7'` = 55. -/
def fourBitsToHex (c : Nat) : Char :=
  Char.ofNat (if c ≤ 9 then 48 + c else 55 + c)

/-- The byte `String::WriteOneByte` stores for a code unit: its low eight bits. -/
def oneByte (c : Char) : Nat := c.toNat % 256

/-- The buffer of a `NanAsciiString` built from a string: one byte per code unit, as many
bytes as the string has units (its `length()`). -/
def NanAsciiString (s : List Char) : List Char :=
  s.map (fun c => Char.ofNat (oneByte c))

/-- The value of a C `char` of such a buffer: the byte read as a signed 8-bit integer
(from -128 to 127). -/
def charValue (c : Char) : Int :=
  if oneByte c < 128 then ((oneByte c : Nat) : Int) else ((oneByte c : Nat) : Int) - 256

/-- The function `hexToFourBits`: `(unsigned char) ((h <= '9') ? (h - '0') : (h - '7'))`.
The comparison and the subtraction are done on `int`, after promotion of the signed
`char`; the cast reduces modulo 256. -/
def hexToFourBits (h : Char) : Nat :=
  ((if charValue h ≤ 57 then charValue h - 48 else charValue h - 55) % 256).toNat

/-- The function `ucharToHex`: writes `hex[0]` and `hex[1]` from the byte `*c`. -/
def ucharToHex (c : Nat) : List Char :=
  [fourBitsToHex ((c &&& 0xf0) >>> 4), fourBitsToHex (c &&& 0x0f)]

/-- The function `hexToUchar`: `*c = (hexToFourBits(hex[0]) << 4) | hexToFourBits(hex[1])`,
stored into an `unsigned char`. -/
def hexToUchar (h0 h1 : Char) : Nat :=
  ((hexToFourBits h0 <<< 4) ||| hexToFourBits h1) % 256

/-! ## Identity encoding (node-zk.cpp, lines 408-438) -/

/-- The function `PasswordToHexString`: the loop `for i in 0..15` writing two characters
per byte of the 16-byte buffer `p`; the result is the string built from `buff`. -/
def PasswordToHexString (p : List Nat) : List Char :=
  (List.range ZOOKEEPER_PASSWORD_BYTE_COUNT).flatMap (fun i => ucharToHex (p.getD i 0))

/-- The function `HexStringToPassword`: `hex` points into the `NanAsciiString` of `s`; the
loop `for i in 0..15` reads `hex[0]`, `hex[1]` and advances `hex` by two.  The function
itself checks no length; a read at or past the terminator of a shorter string is modelled
as reading `NUL`. -/
def HexStringToPassword (s : List Char) : List Nat :=
  (List.range ZOOKEEPER_PASSWORD_BYTE_COUNT).map
    (fun i => hexToUchar ((NanAsciiString s).getD (2 * i) (Char.ofNat 0))
      ((NanAsciiString s).getD (2 * i + 1) (Char.ofNat 0)))

/-- The sixteen upper-case hexadecimal digits, indexed by their value. -/
def upperHexDigits : List Char :=
  "0123456789ABCDEF".toList

/-! ### The C library conversions `%llx`

`idAsString` and `StringToId` are one call each, to `sprintf` and to `sscanf` of the C
library with the conversion `%llx`.  The two conversions are modelled after the C
standard: output is the unsigned value in base 16, lower case, no leading zeros; input
skips white space, accepts an optional sign and an optional `0x` / `0X`, reads the longest
run of hexadecimal digits of either case, stores nothing when there is no digit, and
saturates at `2^64 - 1` on overflow. -/

/-- The digits `0`-`9`, `a`-`f`, indexed by their value: the alphabet of `%llx` output. -/
def lowerHexDigits : List Char :=
  "0123456789abcdef".toList

/-- The character `printf` writes for the digit `d` under `%llx` (`'0'` = 48, `'a'` = 97). -/
def hexDigitChar (d : Nat) : Char := Char.ofNat (if d < 10 then 48 + d else 87 + d)

/-- The digits of `v` in base 16, most significant first; `fuel` bounds the number of
digits written. -/
def sprintf_llx_digits : Nat → Nat → List Char
  | 0, _ => []
  | fuel + 1, v =>
    if v < 16 then [hexDigitChar v]
    else sprintf_llx_digits fuel (v / 16) ++ [hexDigitChar (v % 16)]

/-- The call `sprintf(buf, "%llx", v)` for an unsigned 64-bit `v`: at most 16 digits. -/
def sprintf_llx (v : Nat) : List Char := sprintf_llx_digits 16 v

/-- The value of a hexadecimal digit of either case, `none` for any other character. -/
def hexDigitValue (c : Char) : Option Nat :=
  if 48 ≤ c.toNat ∧ c.toNat ≤ 57 then some (c.toNat - 48)
  else if 97 ≤ c.toNat ∧ c.toNat ≤ 102 then some (c.toNat - 87)
  else if 65 ≤ c.toNat ∧ c.toNat ≤ 70 then some (c.toNat - 55)
  else none

/-- The C classification `isspace` in the "C" locale: space, `\t`, `\n`, `\v`, `\f`, `\r`. -/
def isspace (c : Char) : Bool := c.toNat = 32 ∨ (9 ≤ c.toNat ∧ c.toNat ≤ 13)

/-- Reads the longest run of hexadecimal digits at the head of the input; returns the
accumulated value and the number of digits read. -/
def scanHexDigits : List Char → Nat → Nat → Nat × Nat
  | [], acc, k => (acc, k)
  | c :: cs, acc, k =>
    match hexDigitValue c with
    | some d => scanHexDigits cs (acc * 16 + d) (k + 1)
    | none => (acc, k)

/-- The input starts with `0x` or `0X` followed by a hexadecimal digit. -/
def hasHexPrefix (s : List Char) : Bool :=
  s.head? = some '0' ∧ (s.tail.head? = some 'x' ∨ s.tail.head? = some 'X')
    ∧ (s.tail.tail.head?.bind hexDigitValue).isSome

/-- The call `sscanf(s, "%llx", &v)`: `none` when nothing is stored (no digit), otherwise
the unsigned 64-bit value stored. -/
def sscanf_llx (s : List Char) : Option Nat :=
  let s1 := s.dropWhile isspace
  let neg : Bool := s1.head? = some '-'
  let s2 := if s1.head? = some '-' ∨ s1.head? = some '+' then s1.tail else s1
  let s3 := if hasHexPrefix s2 then s2.drop 2 else s2
  let r := scanHexDigits s3 0 0
  if r.2 = 0 then none
  else
    let v := min r.1 (2 ^ 64 - 1)
    some (if neg then (2 ^ 64 - v) % 2 ^ 64 else v)

/-- The function `idAsString`: `sprintf(idbuff, "%llx", (long long) id)`; the conversion
prints the two's-complement bit pattern of `id` as an unsigned value. -/
def idAsString (id : Int) : List Char := sprintf_llx (id % 2 ^ 64).toNat

/-- The function `StringToId`: `sscanf(*a, "%llx", (long long *) id)` on the
`NanAsciiString` of `s`.  The second argument is the content of `*id` before the call,
kept when nothing is stored; a stored value is read back as a signed 64-bit integer. -/
def StringToId (s : List Char) (id : Int) : Int :=
  match sscanf_llx (NanAsciiString s) with
  | none => id
  | some v => if v < 2 ^ 63 then (v : Int) else (v : Int) - 2 ^ 64

/-- The positional value in base 16 of a string over `lowerHexDigits`. -/
def hexStringValue (s : List Char) : Nat :=
  s.foldl (fun a c => 16 * a + lowerHexDigits.indexOf c) 0

/-- A list of characters each of which is the lower-case digit of a value below 16. -/
def AllLowerHex (l : List Char) : Prop := ∀ c ∈ l, ∃ d, d < 16 ∧ c = hexDigitChar d

/-! ## Constants of the collaborators -/

/-- Modelled from the spec: the header `zookeeper.h` of the protocol library is not part of
the sources; the event types keep the names the source uses, with the values of the
ZooKeeper C client. -/
def ZOO_CREATED_EVENT : Int := 1
/-- See `ZOO_CREATED_EVENT`. -/
def ZOO_DELETED_EVENT : Int := 2
/-- See `ZOO_CREATED_EVENT`. -/
def ZOO_CHANGED_EVENT : Int := 3
/-- See `ZOO_CREATED_EVENT`. -/
def ZOO_CHILD_EVENT : Int := 4
/-- See `ZOO_CREATED_EVENT`. -/
def ZOO_SESSION_EVENT : Int := -1
/-- See `ZOO_CREATED_EVENT`. -/
def ZOO_NOTWATCHING_EVENT : Int := -2

/-- Modelled from the spec: the session states of `zookeeper.h`, which is not part of the
sources, with the values of the ZooKeeper C client. -/
def ZOO_EXPIRED_SESSION_STATE : Int := -112
/-- See `ZOO_EXPIRED_SESSION_STATE`. -/
def ZOO_AUTH_FAILED_STATE : Int := -113
/-- See `ZOO_EXPIRED_SESSION_STATE`. -/
def ZOO_CONNECTING_STATE : Int := 1
/-- See `ZOO_EXPIRED_SESSION_STATE`. -/
def ZOO_ASSOCIATING_STATE : Int := 2
/-- See `ZOO_EXPIRED_SESSION_STATE`. -/
def ZOO_CONNECTED_STATE : Int := 3

/-- Modelled from the spec: the interest flags of `zookeeper.h` (`1<<0` and `1<<1`), which
is not part of the sources. -/
def ZOOKEEPER_WRITE : Int := 1
/-- See `ZOOKEEPER_WRITE`. -/
def ZOOKEEPER_READ : Int := 2

/-- Modelled from the spec: the poll flags of the reactor header `uv.h`, which is not part
of the sources. -/
def UV_READABLE : Int := 1
/-- See `UV_READABLE`. -/
def UV_WRITABLE : Int := 2

/-- Modelled from the spec: the success code and the operation tags of the protocol
library (`zookeeper.h`, `proto.h`), which are not part of the sources. -/
def ZOK : Int := 0
/-- See `ZOK`. -/
def ZOO_DELETE_OP : Int := 2
/-- See `ZOK`. -/
def ZOO_SETACL_OP : Int := 7
/-- See `ZOK`. -/
def ZOO_SETAUTH_OP : Int := 100

/-- The notification names set up in `init` at the end of the source. -/
def on_closed : String := "close"
/-- See `on_closed`. -/
def on_connected : String := "connect"
/-- See `on_closed`. -/
def on_connecting : String := "connecting"
/-- See `on_closed`. -/
def on_event_created : String := "created"
/-- See `on_closed`. -/
def on_event_deleted : String := "deleted"
/-- See `on_closed`. -/
def on_event_changed : String := "changed"
/-- See `on_closed`. -/
def on_event_child : String := "child"
/-- See `on_closed`. -/
def on_event_notwatching : String := "notwatching"

/-! ## Machine integers -/

/-- Reads a 32-bit pattern as a C `int`. -/
def toInt32 (n : Nat) : Int := if n < 2 ^ 31 then (n : Int) else (n : Int) - 2 ^ 32

/-- The C operator `a & b` on `int` (two's complement, 32 bits). -/
def int_and (a b : Int) : Int := toInt32 ((a % 2 ^ 32).toNat &&& (b % 2 ^ 32).toNat)

/-- The C operator `a | b` on `int` (two's complement, 32 bits). -/
def int_or (a b : Int) : Int := toInt32 ((a % 2 ^ 32).toNat ||| (b % 2 ^ 32).toNat)

/-! ## Data model -/

/-- The C struct `clientid_t`: session identifier and 16-byte password. -/
structure clientid_t where
  client_id : Int
  passwd : List Nat
  deriving DecidableEq, Repr

/-- The C struct `timeval`. -/
structure timeval where
  tv_sec : Int
  tv_usec : Int
  deriving DecidableEq, Repr

/-- The C struct `Stat` of the protocol library. -/
structure Stat where
  czxid : Int
  mzxid : Int
  ctime : Int
  mtime : Int
  version : Int
  cversion : Int
  aversion : Int
  ephemeralOwner : Int
  dataLength : Int
  numChildren : Int
  pzxid : Int
  deriving DecidableEq, Repr

/-- The C struct `Id` of the protocol library. -/
structure Id where
  scheme : String
  id : String
  deriving DecidableEq, Repr

/-- The C struct `ACL` of the protocol library. -/
structure ACL where
  perms : Int
  id : Id
  deriving DecidableEq, Repr

/-- The C struct `ACL_vector`: `count` and the array `data`. -/
structure ACL_vector where
  count : Int
  data : List ACL
  deriving DecidableEq, Repr

/-- The C struct `String_vector`: `count` and the array `data`. -/
structure String_vector where
  count : Int
  data : List String
  deriving DecidableEq, Repr

/-- The object built by `createStatObject`, one field per property it sets.  The `Number`
and `Date` properties are kept as the integers they are built from (the conversions to
`double` are exact below `2^53`); `ephemeralOwner` is the string from `idAsString`. -/
structure StatObject where
  czxid : Int
  mzxid : Int
  pzxid : Int
  dataLength : Int
  numChildren : Int
  version : Int
  cversion : Int
  aversion : Int
  ctime : Int
  mtime : Int
  ephemeralOwner : List Char
  createdInThisSession : Bool
  deriving DecidableEq, Repr

/-- One object of the array built by `createAclObject`. -/
structure AclObject where
  perms : Int
  scheme : String
  auth : String
  deriving DecidableEq, Repr

/-- The JavaScript values the binding hands to callbacks and to `emit`. -/
inductive JsValue where
  | undefined
  | null
  | int (n : Int)
  | str (s : String)
  | buffer (bytes : List Nat)
  | stat (o : StatObject)
  | strings (l : List String)
  | acls (l : List AclObject)
  | handback (tag : Nat)
  deriving DecidableEq, Repr

/-- A `NanCallback`: the JavaScript function `fn` with its two hidden properties.
`hidden_zk` tells whether `HIDDEN_PROP_ZK` holds the session object (set by
`A_METHOD_PROLOG` and `AW_METHOD_PROLOG`); `hidden_handback` is `HIDDEN_PROP_HANDBACK`. -/
structure NanCallback where
  fn : Nat
  hidden_zk : Bool
  hidden_handback : Option JsValue
  deriving DecidableEq, Repr

/-- The C struct `completion_data`: callback, operation tag, and the ACL vector owned by a
`setAcl` submission (`NULL` otherwise). -/
structure completion_data where
  cb : Option NanCallback
  type : Int
  data : Option ACL_vector
  deriving DecidableEq, Repr

/-- The calls the binding makes into its collaborators, as recorded in the session log. -/
inductive Effect where
  | emit (event_name : String) (data : JsValue)
  | zoo_set_debug_level (level : Int)
  | zoo_deterministic_conn_order (order : Bool)
  | zookeeper_init (hostPort : String) (session_timeout : Int) (id : clientid_t)
  | zookeeper_close (zh : Nat)
  | zookeeper_interest (zh : Option Nat)
  | zookeeper_process (zh : Option Nat) (events : Int)
  | uv_poll_init (fd : Int)
  | uv_poll_start (events : Int)
  | uv_poll_stop
  | uv_timer_init
  | uv_timer_start (timeout : Int) (interval : Int)
  | uv_timer_stop
  | Ref
  | Unref
  | call (fn : Nat) (argv : List JsValue)
  | delete_callback (fn : Nat)
  | deallocate_ACL_vector (v : Option ACL_vector)
  | free_data (v : Option ACL_vector)
  | free_completion_data (d : completion_data)
  deriving DecidableEq, Repr

/-- The reactor handle `uv_poll_t`, as far as the binding observes it. -/
structure uv_poll_t where
  active : Bool
  fd : Int
  events : Int
  deriving DecidableEq, Repr

/-- The reactor handle `uv_timer_t`: whether it is armed, its timeout and its repeat
interval. -/
structure uv_timer_t where
  active : Bool
  timeout : Int
  interval : Int
  deriving DecidableEq, Repr

/-- The class `ZooKeeper` (private members at the end of the class), with the reference
count `refs` of its `ObjectWrap` base and the log of outgoing calls. -/
structure ZooKeeper where
  zhandle : Option Nat
  myid : clientid_t
  zk_io : uv_poll_t
  zk_timer : uv_timer_t
  fd : Int
  interest : Int
  tv : timeval
  last_activity : Int
  is_closed : Bool
  refs : Int
  log : List Effect
  deriving DecidableEq, Repr

/-- The constructor `ZooKeeper ()`: `zhandle(0)`, `fd(-1)`, zeroed `myid`, `zk_io` and
`zk_timer`, `is_closed = false`.  The members the constructor leaves unset (`interest`,
`tv`, `last_activity`) are zero here. -/
def ZooKeeper.new : ZooKeeper :=
  { zhandle := none
    myid := { client_id := 0, passwd := List.replicate 16 0 }
    zk_io := { active := false, fd := 0, events := 0 }
    zk_timer := { active := false, timeout := 0, interval := 0 }
    fd := -1
    interest := 0
    tv := { tv_sec := 0, tv_usec := 0 }
    last_activity := 0
    is_closed := false
    refs := 0
    log := [] }

/-- Appends one outgoing call to the log. -/
def ZooKeeper.record (zk : ZooKeeper) (e : Effect) : ZooKeeper :=
  { zk with log := zk.log ++ [e] }

/-- The calls logged between two states of the session. -/
def effectsSince (before after : ZooKeeper) : List Effect :=
  after.log.drop before.log.length

/-! ## The reactor and the reference count -/

/-- The call `uv_poll_init(loop, &zk_io, fd)`. -/
def uv_poll_init (zk : ZooKeeper) (fd : Int) : ZooKeeper :=
  { zk.record (.uv_poll_init fd) with zk_io := { active := false, fd := fd, events := 0 } }

/-- The call `uv_poll_start(&zk_io, events, &zk_io_cb)`.  The library first stops the
handle and returns at once when `events` is 0: the handle is active afterwards only for
a non-empty set of events. -/
def uv_poll_start (zk : ZooKeeper) (events : Int) : ZooKeeper :=
  { zk.record (.uv_poll_start events) with
    zk_io := { zk.zk_io with active := decide (events ≠ 0), events := events } }

/-- The call `uv_poll_stop(&zk_io)`. -/
def uv_poll_stop (zk : ZooKeeper) : ZooKeeper :=
  { zk.record .uv_poll_stop with zk_io := { zk.zk_io with active := false } }

/-- The call `uv_timer_init(loop, &zk_timer)`. -/
def uv_timer_init (zk : ZooKeeper) : ZooKeeper :=
  { zk.record .uv_timer_init with zk_timer := { active := false, timeout := 0, interval := 0 } }

/-- The call `uv_timer_start(&zk_timer, &zk_timer_cb, timeout, repeat)`. -/
def uv_timer_start (zk : ZooKeeper) (timeout interval : Int) : ZooKeeper :=
  { zk.record (.uv_timer_start timeout interval) with
    zk_timer := { active := true, timeout := timeout, interval := interval } }

/-- The call `uv_timer_stop(&zk_timer)`. -/
def uv_timer_stop (zk : ZooKeeper) : ZooKeeper :=
  { zk.record .uv_timer_stop with zk_timer := { zk.zk_timer with active := false } }

/-- The call `Ref()` of `ObjectWrap`. -/
def Ref (zk : ZooKeeper) : ZooKeeper :=
  { zk.record .Ref with refs := zk.refs + 1 }

/-- The call `Unref()` of `ObjectWrap`. -/
def Unref (zk : ZooKeeper) : ZooKeeper :=
  { zk.record .Unref with refs := zk.refs - 1 }

/-! ## Notifications (node-zk.cpp, lines 440-481) -/

/-- The method `DoEmit`: calls the JavaScript `emit` of the session object with
`(event_name, this, data)`. -/
def DoEmit (zk : ZooKeeper) (event_name : String) (data : JsValue) : ZooKeeper :=
  zk.record (.emit event_name data)

/-- The method `DoEmitPath`: the path as a string, or `undefined` when `path` is `NULL`. -/
def DoEmitPath (zk : ZooKeeper) (event_name : String) (path : Option String) : ZooKeeper :=
  match path with
  | some p => DoEmit zk event_name (.str p)
  | none => DoEmit zk event_name .undefined

/-- The method `DoEmitClose`: the code as a number. -/
def DoEmitClose (zk : ZooKeeper) (event_name : String) (code : Int) : ZooKeeper :=
  DoEmit zk event_name (.int code)

/-! ## Close (node-zk.cpp, lines 936-969) -/

/-- The method `realClose`. -/
def realClose (zk : ZooKeeper) (code : Int) : ZooKeeper :=
  if zk.is_closed then zk
  else
    let zk := { zk with is_closed := true }
    let zk := if zk.zk_timer.active then uv_timer_stop zk else zk
    match zk.zhandle with
    | none => zk
    | some zh =>
      let zk := zk.record (.zookeeper_close zh)
      let zk := { zk with zhandle := none }
      let zk := if zk.zk_io.active then uv_poll_stop zk else zk
      let zk := Unref zk
      DoEmitClose zk on_closed code

/-- The method `Close` exposed to callers as `close`: `zk->realClose(0)`. -/
def Close (zk : ZooKeeper) : ZooKeeper :=
  realClose zk 0

/-! ## The event-loop bridge (node-zk.cpp, lines 235-312) -/

/-- What `zookeeper_interest` answers: its return code and the values it leaves in `fd`,
`interest` and `tv`. -/
structure InterestReply where
  rc : Int
  fd : Int
  interest : Int
  tv : timeval
  deriving DecidableEq, Repr

/-- The expression `tv.tv_sec * 1000 + tv.tv_usec / 1000.` stored into an `int64_t`: the
sum is a `double` and the conversion truncates toward zero.  The arithmetic is taken as
exact. -/
def delayOfTimeval (tv : timeval) : Int :=
  Int.tdiv (tv.tv_sec * 1000000 + tv.tv_usec) 1000

/-- The protocol library as `yield` sees it: the answer of `zookeeper_interest` for the
handle it is given (`none` is the `NULL` handle). -/
abbrev InterestOracle := Option Nat → InterestReply

/-- The method `yield`.  `now` is the value of `uv_now`, `q zk.zhandle` the answer of
`zookeeper_interest(zhandle, &fd, &interest, &tv)`. -/
def yield (zk : ZooKeeper) (now : Int) (q : InterestOracle) : ZooKeeper :=
  if zk.is_closed then zk
  else
    let zk := { zk with last_activity := now }
    let r := q zk.zhandle
    let zk := { zk.record (.zookeeper_interest zk.zhandle) with
                fd := r.fd, interest := r.interest, tv := r.tv }
    let zk := if zk.zk_io.active then uv_poll_stop zk else zk
    if r.rc ≠ 0 then zk
    else if zk.fd = -1 then zk
    else
      let delay := delayOfTimeval zk.tv
      let events :=
        int_or (if int_and zk.interest ZOOKEEPER_READ ≠ 0 then UV_READABLE else 0)
               (if int_and zk.interest ZOOKEEPER_WRITE ≠ 0 then UV_WRITABLE else 0)
      let zk := uv_poll_init zk zk.fd
      let zk := uv_poll_start zk events
      uv_timer_start zk delay delay

/-- One invocation of `main_watcher` by the protocol library: event type, state, path
(`NULL` allowed) and the client id `*zoo_client_id(zzh)` the handle reports at that time. -/
structure WatcherEvent where
  type : Int
  state : Int
  path : Option String
  client_id : clientid_t
  deriving DecidableEq, Repr

/-- The function `main_watcher`, with the session as its `context`. -/
def main_watcher (zk : ZooKeeper) (ev : WatcherEvent) : ZooKeeper :=
  if ev.type = ZOO_SESSION_EVENT then
    if ev.state = ZOO_CONNECTED_STATE then
      DoEmitPath { zk with myid := ev.client_id } on_connected ev.path
    else if ev.state = ZOO_CONNECTING_STATE then
      DoEmitPath zk on_connecting ev.path
    else if ev.state = ZOO_AUTH_FAILED_STATE then
      realClose zk ZOO_AUTH_FAILED_STATE
    else if ev.state = ZOO_EXPIRED_SESSION_STATE then
      realClose zk ZOO_EXPIRED_SESSION_STATE
    else zk
  else if ev.type = ZOO_CREATED_EVENT then
    DoEmitPath zk on_event_created ev.path
  else if ev.type = ZOO_DELETED_EVENT then
    DoEmitPath zk on_event_deleted ev.path
  else if ev.type = ZOO_CHANGED_EVENT then
    DoEmitPath zk on_event_changed ev.path
  else if ev.type = ZOO_CHILD_EVENT then
    DoEmitPath zk on_event_child ev.path
  else if ev.type = ZOO_NOTWATCHING_EVENT then
    DoEmitPath zk on_event_notwatching ev.path
  else zk

/-- What `zookeeper_process` does as seen from the binding: its return code and the
invocations of `main_watcher` it makes, in order, before it returns. -/
structure ProcessReply where
  rc : Int
  delivered : List WatcherEvent
  deriving DecidableEq, Repr

/-- The events handed to `zookeeper_process` by `zk_io_cb`. -/
def io_events (status revents : Int) : Int :=
  if status < 0 then int_or ZOOKEEPER_READ ZOOKEEPER_WRITE
  else
    int_or (if int_and revents UV_READABLE ≠ 0 then ZOOKEEPER_READ else 0)
           (if int_and revents UV_WRITABLE ≠ 0 then ZOOKEEPER_WRITE else 0)

/-- The function `zk_io_cb`: the reactor reports `status` and `revents`; the library
processes the events (delivering `p.delivered` to `main_watcher`), a non-`ZOK` return
code is only logged, and `yield` runs. -/
def zk_io_cb (zk : ZooKeeper) (status revents : Int) (p : ProcessReply) (now : Int)
    (q : InterestOracle) : ZooKeeper :=
  let events := io_events status revents
  let zk := zk.record (.zookeeper_process zk.zhandle events)
  let zk := p.delivered.foldl main_watcher zk
  yield zk now q

/-- The deadline computed by `zk_timer_cb`:
`last_activity + tv.tv_sec * 1000 + tv.tv_usec / 1000.` stored into an `int64_t` (the
integer sum first, then the `double` addition, then truncation toward zero; the
arithmetic is taken as exact). -/
def timer_deadline (zk : ZooKeeper) : Int :=
  Int.tdiv ((zk.last_activity + zk.tv.tv_sec * 1000) * 1000 + zk.tv.tv_usec) 1000

/-- The function `zk_timer_cb`.  `now` is the value of `uv_now`, the same for the nested
`yield`; `q` answers `zookeeper_interest` should `yield` ask. -/
def zk_timer_cb (zk : ZooKeeper) (now : Int) (q : InterestOracle) : ZooKeeper :=
  let timeout := timer_deadline zk
  if timeout < now then yield zk now q
  else
    let delay := timeout - now + 1
    uv_timer_start zk delay delay

/-! ## Initialisation (node-zk.cpp, lines 314-373) -/

/-- The method `realInit`.  `reply` is what `zookeeper_init` returns (`none` for `0`). -/
def realInit (zk : ZooKeeper) (hostPort : String) (session_timeout : Int)
    (client_id : clientid_t) (reply : Option Nat) (now : Int) (q : InterestOracle) :
    Bool × ZooKeeper :=
  let zk := { zk with myid := client_id }
  let zk := { zk.record (.zookeeper_init hostPort session_timeout zk.myid) with
              zhandle := reply }
  match reply with
  | none => (false, zk)
  | some _ =>
    let zk := Ref zk
    let zk := uv_timer_init zk
    (true, yield zk now q)

/-- The properties `Init` reads from its argument object, after the conversions the
source applies (`ToInt32`, `ToBoolean`, `ToString`).  For `client_id` and
`client_password`, `none` is the value `undefined` and `some s` any other value, `s`
being its `ToString`. -/
structure InitObject where
  debug_level : Int
  host_order_deterministic : Bool
  connect : String
  timeout : Int
  client_id : Option (List Char)
  client_password : Option (List Char)
  deriving DecidableEq, Repr

/-- The arguments of a call of `init`: none at all, a first argument that is not an
object, or an object. -/
inductive InitArgs where
  | missing
  | nonObject
  | object (o : InitObject)
  deriving DecidableEq, Repr

/-- How a call of `init` ends: an exception thrown by `THROW_IF_NOT`, the `ErrnoException`
returned when `realInit` fails, or `this`. -/
inductive InitOutcome where
  | threw (text : String)
  | errnoException
  | returnedThis
  deriving DecidableEq, Repr

/-- The method `Init`. -/
def Init (zk : ZooKeeper) (args : InitArgs) (reply : Option Nat) (now : Int)
    (q : InterestOracle) : InitOutcome × ZooKeeper :=
  match args with
  | .missing => (.threw "Must pass ZK init object", zk)
  | .nonObject => (.threw "Init argument must be an object", zk)
  | .object arg =>
    let zk := zk.record (.zoo_set_debug_level arg.debug_level)
    let zk := zk.record (.zoo_deterministic_conn_order arg.host_order_deterministic)
    let session_timeout := if arg.timeout = 0 then 20000 else arg.timeout
    let local_client : clientid_t := { client_id := 0, passwd := List.replicate 16 0 }
    let id_and_password_defined : Bool :=
      arg.client_id.isSome && arg.client_password.isSome
    let id_and_password_undefined : Bool :=
      arg.client_id.isNone && arg.client_password.isNone
    if ¬ (id_and_password_defined || id_and_password_undefined) then
      (.threw "ZK init: client id and password must either be both specified or unspecified",
        zk)
    else
      match arg.client_id, arg.client_password with
      | some id, some password =>
        if password.length ≠ 2 * ZOOKEEPER_PASSWORD_BYTE_COUNT then
          (.threw "ZK init: password does not have correct length", zk)
        else
          let local_client : clientid_t :=
            { client_id := StringToId id local_client.client_id
              passwd := HexStringToPassword password }
          match realInit zk arg.connect session_timeout local_client reply now q with
          | (false, zk) => (.errnoException, zk)
          | (true, zk) => (.returnedThis, zk)
      | _, _ =>
        match realInit zk arg.connect session_timeout local_client reply now q with
        | (false, zk) => (.errnoException, zk)
        | (true, zk) => (.returnedThis, zk)

/-! ## Result marshaling (node-zk.cpp, lines 621-637 and 839-856) -/

/-- The method `createStatObject`: one property per field of `*stat`; `ctime` and `mtime`
go through `stat->ctime/1000.` and `NODE_UNIXTIME_V8`, which multiplies by 1000 again.
It reads through `stat`, so it takes a record, not a pointer that may be `NULL`. -/
def createStatObject (zk : ZooKeeper) (stat : Stat) : StatObject :=
  { czxid := stat.czxid
    mzxid := stat.mzxid
    pzxid := stat.pzxid
    dataLength := stat.dataLength
    numChildren := stat.numChildren
    version := stat.version
    cversion := stat.cversion
    aversion := stat.aversion
    ctime := stat.ctime
    mtime := stat.mtime
    ephemeralOwner := idAsString stat.ephemeralOwner
    createdInThisSession := decide (zk.myid.client_id = stat.ephemeralOwner) }

/-- The method `createAclObject`: the loop `for (i = 0; i < aclv->count; i++)` over
`aclv->data[i]`.  An index at or past the end of `data` reads a zeroed entry. -/
def createAclObject (aclv : ACL_vector) : List AclObject :=
  (List.range aclv.count.toNat).map fun i =>
    let acl := aclv.data.getD i { perms := 0, id := { scheme := "", id := "" } }
    { perms := acl.perms, scheme := acl.id.scheme, auth := acl.id.id }

/-- The array both string-list trampolines build: the loop
`for (i = 0; i < (uint32_t)strings->count; ++i)` over `strings->data[i]`.  An index at or
past the end of `data` reads the empty string. -/
def stringsArray (strings : String_vector) : List String :=
  (List.range (strings.count % 2 ^ 32).toNat).map fun i => strings.data.getD i ""

/-! ## Completion trampolines (node-zk.cpp, lines 483-503 and 565-896)

Every trampoline takes the message function `zerror` of the protocol library and the
session the callback is bound to, and returns `none` when an `assert` of the source
fails or a `NULL` pointer is read. -/

/-- The macro `CALLBACK_PROLOG`, as far as it can fail: `assert (callback)` and
`assert(zkk)`, the session being found through `HIDDEN_PROP_ZK`. -/
def CALLBACK_PROLOG (cb : Option NanCallback) : Option NanCallback :=
  match cb with
  | none => none
  | some callback => if callback.hidden_zk then some callback else none

/-- The macro `CALLBACK_EPILOG`: `callback->Call(argc, argv)` and `delete callback`. -/
def CALLBACK_EPILOG (zk : ZooKeeper) (callback : NanCallback) (argv : List JsValue) :
    ZooKeeper :=
  (zk.record (.call callback.fn argv)).record (.delete_callback callback.fn)

/-- The function `string_completion`. -/
def string_completion (zerror : Int → String) (zk : ZooKeeper) (rc : Int)
    (value : Option String) (cb : Option NanCallback) : Option ZooKeeper :=
  let value := match value with
    | none => "null"
    | some v => v
  match CALLBACK_PROLOG cb with
  | none => none
  | some callback =>
    some (CALLBACK_EPILOG zk callback [.int rc, .str (zerror rc), .str value])

/-- The function `void_completion`. -/
def void_completion (zerror : Int → String) (zk : ZooKeeper) (rc : Int)
    (d : completion_data) : Option ZooKeeper :=
  let cb := d.cb
  let zk :=
    if d.type = ZOO_SETACL_OP then
      (zk.record (.deallocate_ACL_vector d.data)).record (.free_data d.data)
    else zk
  match CALLBACK_PROLOG cb with
  | none => none
  | some callback =>
    let zk := CALLBACK_EPILOG zk callback [.int rc, .str (zerror rc)]
    some (zk.record (.free_completion_data d))

/-- The function `stat_completion`: the stat is read when `rc == ZOK`, whatever the
pointer. -/
def stat_completion (zerror : Int → String) (zk : ZooKeeper) (rc : Int)
    (stat : Option Stat) (cb : Option NanCallback) : Option ZooKeeper :=
  match CALLBACK_PROLOG cb with
  | none => none
  | some callback =>
    if rc = ZOK then
      match stat with
      | none => none
      | some st =>
        some (CALLBACK_EPILOG zk callback
          [.int rc, .str (zerror rc), .stat (createStatObject zk st)])
    else
      some (CALLBACK_EPILOG zk callback [.int rc, .str (zerror rc), .null])

/-- The stat argument of the trampolines that test the pointer:
`stat != 0 ? zkk->createStatObject (stat) : null`. -/
def statOrNull (zk : ZooKeeper) (stat : Option Stat) : JsValue :=
  match stat with
  | some st => .stat (createStatObject zk st)
  | none => .null

/-- The string-list argument: the array when `strings != NULL`, `null` otherwise. -/
def stringsOrNull (strings : Option String_vector) : JsValue :=
  match strings with
  | some v => .strings (stringsArray v)
  | none => .null

/-- The ACL argument: `acl != NULL ? zkk->createAclObject(acl) : null`. -/
def aclsOrNull (acl : Option ACL_vector) : JsValue :=
  match acl with
  | some v => .acls (createAclObject v)
  | none => .null

/-- The function `data_completion`; `BufferNew(value, value_len)` copies `value_len`
bytes. -/
def data_completion (zerror : Int → String) (zk : ZooKeeper) (rc : Int)
    (value : Option (List Nat)) (value_len : Int) (stat : Option Stat)
    (cb : Option NanCallback) : Option ZooKeeper :=
  match CALLBACK_PROLOG cb with
  | none => none
  | some callback =>
    let a2 := statOrNull zk stat
    let a3 := match value with
      | some bytes => JsValue.buffer (bytes.take value_len.toNat)
      | none => JsValue.null
    some (CALLBACK_EPILOG zk callback [.int rc, .str (zerror rc), a2, a3])

/-- The function `strings_completion`. -/
def strings_completion (zerror : Int → String) (zk : ZooKeeper) (rc : Int)
    (strings : Option String_vector) (cb : Option NanCallback) : Option ZooKeeper :=
  match CALLBACK_PROLOG cb with
  | none => none
  | some callback =>
    some (CALLBACK_EPILOG zk callback [.int rc, .str (zerror rc), stringsOrNull strings])

/-- The function `strings_stat_completion`. -/
def strings_stat_completion (zerror : Int → String) (zk : ZooKeeper) (rc : Int)
    (strings : Option String_vector) (stat : Option Stat) (cb : Option NanCallback) :
    Option ZooKeeper :=
  match CALLBACK_PROLOG cb with
  | none => none
  | some callback =>
    some (CALLBACK_EPILOG zk callback
      [.int rc, .str (zerror rc), stringsOrNull strings, statOrNull zk stat])

/-- The function `acl_completion`: both arguments are built, each behind a test of its
pointer; then `deallocate_ACL_vector(acl)` is called with the pointer as received, without
such a test, and the callback runs after it.  The deallocator of the protocol library
reads `v->data` through its argument, so with `acl == NULL` the trampoline faults at that
call and `CALLBACK_EPILOG` is not reached. -/
def acl_completion (zerror : Int → String) (zk : ZooKeeper) (rc : Int)
    (acl : Option ACL_vector) (stat : Option Stat) (cb : Option NanCallback) :
    Option ZooKeeper :=
  match CALLBACK_PROLOG cb with
  | none => none
  | some callback =>
    let a2 := aclsOrNull acl
    let a3 := statOrNull zk stat
    match acl with
    | none => none
    | some v =>
      let zk := zk.record (.deallocate_ACL_vector (some v))
      some (CALLBACK_EPILOG zk callback [.int rc, .str (zerror rc), a2, a3])

/-! ## The watcher trampoline (node-zk.cpp, lines 505-544 and 700-703) -/

/-- The C library function `strdup` on the buffer of a `NanUtf8String`: the copy ends at
the first `NUL`. -/
def strdup (s : String) : String :=
  String.mk (s.data.takeWhile fun c => c ≠ Char.ofNat 0)

/-- The method `createAclVector`.  The JavaScript array is the list of its elements, each
with the properties the loop reads: `perms` (an integral number, before `ToUint32`),
`scheme` and `auth` (after `ToString`).  `aclv->count = arr->Length()` stores a
`uint32_t` into an `int32_t`, `acl->perms = _perms` likewise; an index at or past the end
of the array reads an object with zero `perms` and empty strings. -/
def createAclVector (arr : List AclObject) : ACL_vector :=
  let count := toInt32 (arr.length % 2 ^ 32)
  { count := count
    data := (List.range count.toNat).map fun i =>
      let obj := arr.getD i { perms := 0, scheme := "", auth := "" }
      let _perms := (obj.perms % 2 ^ 32).toNat
      { perms := toInt32 _perms
        id := { scheme := strdup obj.scheme, id := strdup obj.auth } } }

/-! ## Vocabulary of the statements -/

/-- The configuration errors of `init`: exactly one of `client_id` / `client_password` is
supplied, or both are and the password string does not have 32 characters. -/
def ConfigError (o : InitObject) : Prop :=
  (o.client_id.isSome ≠ o.client_password.isSome)
  ∨ ∃ id pw, o.client_id = some id ∧ o.client_password = some pw ∧ pw.length ≠ 32

/-- The session timeout `Init` passes on: 20000 when the option is zero. -/
def effectiveTimeout (o : InitObject) : Int :=
  if o.timeout = 0 then 20000 else o.timeout

/-- The client id `Init` passes on: zeroed when no identity is supplied, decoded from the
two strings otherwise. -/
def suppliedClient (o : InitObject) : clientid_t :=
  match o.client_id, o.client_password with
  | some id, some pw => { client_id := StringToId id 0, passwd := HexStringToPassword pw }
  | _, _ => { client_id := 0, passwd := List.replicate 16 0 }

/-- The payloads of the `close` notifications among some logged calls, in order. -/
def closeNotifications (l : List Effect) : List JsValue :=
  l.filterMap fun e =>
    match e with
    | .emit n d => if n = on_closed then some d else none
    | _ => none

/-- The names of the notifications among some logged calls, in order. -/
def emittedNames (l : List Effect) : List String :=
  l.filterMap fun e =>
    match e with
    | .emit n _ => some n
    | _ => none

/-- The handles released by `zookeeper_close` among some logged calls, in order. -/
def handleReleases (l : List Effect) : List Nat :=
  l.filterMap fun e =>
    match e with
    | .zookeeper_close zh => some zh
    | _ => none

/-- The number of `Unref` calls among some logged calls. -/
def unrefCalls (l : List Effect) : Nat :=
  l.count Effect.Unref

/-- The contract of the protocol library for the `NULL` handle: `zookeeper_interest`
reports an error. -/
def RejectsNullHandle (q : InterestOracle) : Prop :=
  (q none).rc ≠ 0

/-- The states of a session reachable from a fresh one by calls of `init`, `close`,
`yield`, by the reactor callbacks `zk_io_cb` and `zk_timer_cb` (each only while its
watcher is active) and by `main_watcher` events, in any order.  The index tells whether
a call of `init` has got as far as `realInit`; such a call happens at most once.  A call
of `init` that throws can be repeated. -/
inductive Reachable : Bool → ZooKeeper → Prop where
  | fresh : Reachable false ZooKeeper.new
  | init_threw (b : Bool) (zk : ZooKeeper) (args : InitArgs) (reply : Option Nat) (now : Int)
      (q : InterestOracle) (text : String) :
      Reachable b zk → RejectsNullHandle q → (Init zk args reply now q).1 = .threw text →
      Reachable b (Init zk args reply now q).2
  | init (zk : ZooKeeper) (args : InitArgs) (reply : Option Nat) (now : Int)
      (q : InterestOracle) :
      Reachable false zk → RejectsNullHandle q → Reachable true (Init zk args reply now q).2
  | close (b : Bool) (zk : ZooKeeper) (code : Int) :
      Reachable b zk → Reachable b (realClose zk code)
  | yield (b : Bool) (zk : ZooKeeper) (now : Int) (q : InterestOracle) :
      Reachable b zk → RejectsNullHandle q → Reachable b (yield zk now q)
  | io (b : Bool) (zk : ZooKeeper) (status revents : Int) (p : ProcessReply) (now : Int)
      (q : InterestOracle) :
      Reachable b zk → RejectsNullHandle q → zk.zk_io.active = true →
      Reachable b (zk_io_cb zk status revents p now q)
  | timer (b : Bool) (zk : ZooKeeper) (now : Int) (q : InterestOracle) :
      Reachable b zk → RejectsNullHandle q → zk.zk_timer.active = true →
      Reachable b (zk_timer_cb zk now q)
  | watcher (b : Bool) (zk : ZooKeeper) (ev : WatcherEvent) :
      Reachable b zk → Reachable b (main_watcher zk ev)

/-- Neither the poll watcher nor the timer is armed. -/
def Quiet (zk : ZooKeeper) : Prop :=
  zk.zk_io.active = false ∧ zk.zk_timer.active = false

/-- The invariant of the bridge: a closed session is quiet, a session without handle is
quiet, and before `realInit` there is no handle. -/
def SessionInv (inited : Bool) (zk : ZooKeeper) : Prop :=
  (zk.is_closed = true → Quiet zk)
  ∧ (zk.zhandle = none → Quiet zk)
  ∧ (inited = false → zk.zhandle = none)

/-- The callback invocations among some logged calls, in order: function and arguments. -/
def callbackCalls (l : List Effect) : List (Nat × List JsValue) :=
  l.filterMap fun e =>
    match e with
    | .call fn argv => some (fn, argv)
    | _ => none

/-- The callbacks deleted among some logged calls, in order. -/
def callbackDeletes (l : List Effect) : List Nat :=
  l.filterMap fun e =>
    match e with
    | .delete_callback fn => some fn
    | _ => none

/-- The completion records freed among some logged calls, in order. -/
def completionFrees (l : List Effect) : List completion_data :=
  l.filterMap fun e =>
    match e with
    | .free_completion_data d => some d
    | _ => none

/-- The ACL buffers freed by `free(d->data)` among some logged calls, in order. -/
def dataFrees (l : List Effect) : List (Option ACL_vector) :=
  l.filterMap fun e =>
    match e with
    | .free_data v => some v
    | _ => none

/-- The arguments of `deallocate_ACL_vector` among some logged calls, in order. -/
def aclDeallocations (l : List Effect) : List (Option ACL_vector) :=
  l.filterMap fun e =>
    match e with
    | .deallocate_ACL_vector v => some v
    | _ => none

/-- A trampoline ran to its end and, between `zk` and its result, invoked the callback
`cb` exactly once, with arguments that start with the result code and its message, and
deleted `cb` exactly once. -/
def ResolvesOnce (zk : ZooKeeper) (res : Option ZooKeeper) (cb : NanCallback) (rc : Int)
    (msg : String) : Prop :=
  ∃ z payload, res = some z
    ∧ callbackCalls (effectsSince zk z) = [(cb.fn, .int rc :: .str msg :: payload)]
    ∧ callbackDeletes (effectsSince zk z) = [cb.fn]

/-- The logged call is a callback invocation. -/
def isCallbackCall : Effect → Bool
  | .call _ _ => true
  | _ => false

/-- The logged call releases an ACL buffer: `deallocate_ACL_vector` or `free(d->data)`. -/
def isAclRelease : Effect → Bool
  | .deallocate_ACL_vector _ => true
  | .free_data _ => true
  | _ => false

/-- Among some logged calls, every callback invocation comes before every release of an
ACL buffer: the buffer is released after the callback has returned. -/
def CallbackBeforeAclRelease (l : List Effect) : Prop :=
  ∀ i j : Nat, (l[i]?).any isCallbackCall = true → (l[j]?).any isAclRelease = true → i < j

/-- Among some logged calls, every release of an ACL buffer comes before every callback
invocation: the buffer is released before the callback is entered. -/
def AclReleaseBeforeCallback (l : List Effect) : Prop :=
  ∀ i j : Nat, (l[i]?).any isAclRelease = true → (l[j]?).any isCallbackCall = true → i < j

/-- A vector of the protocol library is well formed: `count` is the number of elements of
`data`, and fits the `int32_t` it is stored in. -/
def CountMatches {α : Type} (count : Int) (data : List α) : Prop :=
  count = (data.length : Int) ∧ data.length < 2 ^ 31

/-- The object `createAclObject` builds for one ACL entry. -/
def aclObjectOf (acl : ACL) : AclObject :=
  { perms := acl.perms, scheme := acl.id.scheme, auth := acl.id.id }

/-- The string holds no `NUL` character. -/
def NulFree (s : String) : Prop :=
  ∀ c ∈ s.data, c ≠ Char.ofNat 0

/-- The entry a caller supplies to `setAcl` is in range: `perms` fits a non-negative
`int32_t` and neither string holds a `NUL`. -/
def AclEntryInRange (e : AclObject) : Prop :=
  0 ≤ e.perms ∧ e.perms < 2 ^ 31 ∧ NulFree e.scheme ∧ NulFree e.auth

/-- The ACL entry of the protocol library with the fields of a caller-supplied entry. -/
def aclOf (e : AclObject) : ACL :=
  { perms := e.perms, id := { scheme := e.scheme, id := e.auth } }

/-- The notification the specification names for each node event type. -/
def nodeEventName (type : Int) : Option String :=
  if type = ZOO_CREATED_EVENT then some "created"
  else if type = ZOO_DELETED_EVENT then some "deleted"
  else if type = ZOO_CHANGED_EVENT then some "changed"
  else if type = ZOO_CHILD_EVENT then some "child"
  else if type = ZOO_NOTWATCHING_EVENT then some "notwatching"
  else none

/-- The payload of a path notification: the path, or `undefined` when it is absent. -/
def pathOrUndefined (path : Option String) : JsValue :=
  match path with
  | some p => .str p
  | none => .undefined

/-- The C test `x & flag` is non-zero: the flag is set in `x`. -/
def HasFlag (x flag : Int) : Prop :=
  int_and x flag ≠ 0

instance (x flag : Int) : Decidable (HasFlag x flag) :=
  inferInstanceAs (Decidable (int_and x flag ≠ 0))

/-- The poll flags that mirror an interest: readable for read interest, writable for write
interest, nothing else. -/
def pollFlagsFor (interest : Int) : Int :=
  (if HasFlag interest ZOOKEEPER_READ then UV_READABLE else 0)
    + (if HasFlag interest ZOOKEEPER_WRITE then UV_WRITABLE else 0)

/-- A timeout of `sec` seconds and `usec` microseconds in whole milliseconds. -/
def millisOf (tv : timeval) : Int :=
  1000 * tv.tv_sec + tv.tv_usec / 1000

/-- The calls of `zookeeper_process` among some logged calls, in order: handle and events. -/
def processCalls (l : List Effect) : List (Option Nat × Int) :=
  l.filterMap fun e =>
    match e with
    | .zookeeper_process zh events => some (zh, events)
    | _ => none

/-- Between two states the log has only grown, and by no call of `zookeeper_process`. -/
def GrowsWithoutProcess (a b : ZooKeeper) : Prop :=
  ∃ X, b.log = a.log ++ X ∧ processCalls X = []

/-- The character is one of the lower-case letters `a`-`f`. -/
def IsLowerHexLetter (c : Char) : Prop :=
  97 ≤ c.toNat ∧ c.toNat ≤ 102

instance (c : Char) : Decidable (IsLowerHexLetter c) :=
  inferInstanceAs (Decidable (97 ≤ c.toNat ∧ c.toNat ≤ 102))

/-- Standard base-16 decoding of a string of 32 hexadecimal digits into 16 bytes: byte `i`
is `16 * value (s[2i]) + value (s[2i+1])`. -/
def standardHexDecode (s : List Char) : List Nat :=
  (List.range 16).map fun i =>
    16 * (hexDigitValue (s.getD (2 * i) '0')).getD 0
      + (hexDigitValue (s.getD (2 * i + 1) '0')).getD 0

/-- Some logged calls release nothing: no `close` notification, no `zookeeper_close`, no
`Unref`. -/
def NoRelease (l : List Effect) : Prop :=
  closeNotifications l = [] ∧ handleReleases l = [] ∧ unrefCalls l = 0

/-- The states a session can reach from `start` without another call of `init`: by
`close`, by `yield`, by the reactor callbacks `zk_io_cb` and `zk_timer_cb` (each only
while its watcher is active) and by `main_watcher` events, in any order. -/
inductive ReachableWithoutInit (start : ZooKeeper) : ZooKeeper → Prop where
  | start : ReachableWithoutInit start start
  | close (zk : ZooKeeper) (code : Int) :
      ReachableWithoutInit start zk → ReachableWithoutInit start (realClose zk code)
  | yield (zk : ZooKeeper) (now : Int) (q : InterestOracle) :
      ReachableWithoutInit start zk → ReachableWithoutInit start (yield zk now q)
  | io (zk : ZooKeeper) (status revents : Int) (p : ProcessReply) (now : Int)
      (q : InterestOracle) :
      ReachableWithoutInit start zk → zk.zk_io.active = true →
      ReachableWithoutInit start (zk_io_cb zk status revents p now q)
  | timer (zk : ZooKeeper) (now : Int) (q : InterestOracle) :
      ReachableWithoutInit start zk → zk.zk_timer.active = true →
      ReachableWithoutInit start (zk_timer_cb zk now q)
  | watcher (zk : ZooKeeper) (ev : WatcherEvent) :
      ReachableWithoutInit start zk → ReachableWithoutInit start (main_watcher zk ev)

/-- The session is closed yet holds the handle `zh` and `refs` references, nothing is
armed, and since the state `origin` nothing has been released. -/
def Leaked (origin : ZooKeeper) (zh : Nat) (refs : Int) (zk : ZooKeeper) : Prop :=
  zk.is_closed = true ∧ zk.zhandle = some zh ∧ zk.refs = refs ∧ Quiet zk
    ∧ ∃ X, zk.log = origin.log ++ X ∧ NoRelease X

/-! ## Sample inputs -/

/-- A sample password: the bytes 0, 17, 34, ..., 255. -/
def samplePassword : List Nat := (List.range 16).map (fun i => 17 * i)

/-- A sample library: `zookeeper_interest` answers socket 5, read interest, 6.666 s for a
handle, and the error -8 (bad arguments) for the `NULL` handle. -/
def sampleInterest : InterestOracle := fun zh =>
  match zh with
  | some _ => { rc := 0, fd := 5, interest := 2, tv := { tv_sec := 6, tv_usec := 666000 } }
  | none => { rc := -8, fd := -1, interest := 0, tv := { tv_sec := 0, tv_usec := 0 } }

/-- A string of 32 characters none of which is a hexadecimal digit. -/
def nonHexPassword : List Char := List.replicate 32 'z'

/-- An `init` argument with an identity and the password `nonHexPassword`. -/
def nonHexPasswordInit : InitObject :=
  { debug_level := 1
    host_order_deterministic := false
    connect := "localhost:2181"
    timeout := 0
    client_id := some ['1', 'f']
    client_password := some nonHexPassword }

/-- An `init` argument with an identity but no password. -/
def idOnlyInit : InitObject :=
  { debug_level := 1
    host_order_deterministic := false
    connect := "localhost:2181"
    timeout := 0
    client_id := some ['1', 'f']
    client_password := none }

/-- An `init` argument without identity. -/
def plainInit : InitObject :=
  { debug_level := 1
    host_order_deterministic := false
    connect := "localhost:2181"
    timeout := 0
    client_id := none
    client_password := none }

/-- A session right after a successful `init` without identity: handle 7. -/
def openSession : ZooKeeper :=
  (Init ZooKeeper.new (.object plainInit) (some 7) 0 sampleInterest).2

/-- A session-expired event as the library hands it to `main_watcher`. -/
def expiredEvent : WatcherEvent :=
  { type := ZOO_SESSION_EVENT, state := ZOO_EXPIRED_SESSION_STATE, path := some "",
    client_id := { client_id := 0, passwd := List.replicate 16 0 } }

/-- The session `openSession` after a socket event during whose processing the library
delivers `expiredEvent`. -/
def expiredDuringIo : ZooKeeper :=
  zk_io_cb openSession 0 1 { rc := 0, delivered := [expiredEvent] } 10 sampleInterest

/-- A callback registered by `A_METHOD_PROLOG`: function 3, bound to the session. -/
def sampleCallback : NanCallback :=
  { fn := 3, hidden_zk := true, hidden_handback := none }

/-- An ACL vector with the single entry `world:anyone`, all permissions. -/
def sampleAclVector : ACL_vector :=
  { count := 1, data := [{ perms := 31, id := { scheme := "world", id := "anyone" } }] }

/-- The completion record `ASetAcl` builds for `sampleCallback` and `sampleAclVector`. -/
def sampleSetAclData : completion_data :=
  { cb := some sampleCallback, type := ZOO_SETACL_OP, data := some sampleAclVector }

/-- A sample message function of the protocol library. -/
def sampleZerror : Int → String := fun rc => if rc = 0 then "ok" else "error"

/-- A children vector with three names, not in alphabetical order. -/
def sampleChildren : String_vector :=
  { count := 3, data := ["zeta", "alpha", "mid"] }

/-- An ACL vector with two entries, the second one `world:anyone`. -/
def sampleAclVector2 : ACL_vector :=
  { count := 2
    data := [{ perms := 1, id := { scheme := "digest", id := "user:hash" } },
             { perms := 31, id := { scheme := "world", id := "anyone" } }] }

/-- Two caller-supplied ACL entries. -/
def sampleAclEntries : List AclObject :=
  [{ perms := 1, scheme := "digest", auth := "user:hash" },
   { perms := 31, scheme := "world", auth := "anyone" }]

/-- A session event whose state is associating. -/
def associatingEvent : WatcherEvent :=
  { type := ZOO_SESSION_EVENT, state := ZOO_ASSOCIATING_STATE, path := some "",
    client_id := { client_id := 0, passwd := List.replicate 16 0 } }

/-- A session event whose state is connecting. -/
def connectingEvent : WatcherEvent :=
  { type := ZOO_SESSION_EVENT, state := ZOO_CONNECTING_STATE, path := some "",
    client_id := { client_id := 0, passwd := List.replicate 16 0 } }

/-- A session-connected event on which the handle reports the identifier 255. -/
def connectedEvent : WatcherEvent :=
  { type := ZOO_SESSION_EVENT, state := ZOO_CONNECTED_STATE, path := some "",
    client_id := { client_id := 255, passwd := List.replicate 16 7 } }

/-- The metadata of an ephemeral node owned by session 255. -/
def sampleStat : Stat :=
  { czxid := 4, mzxid := 9, ctime := 1000, mtime := 2000, version := 2, cversion := 0,
    aversion := 1, ephemeralOwner := 255, dataLength := 5, numChildren := 0, pzxid := 4 }

/-- The lower-case password `1a1a...1a` (32 characters). -/
def lowerCasePassword : List Char :=
  (List.replicate 16 ['1', 'a']).flatten

/-- An upper-case password of 32 characters. -/
def upperCasePassword : List Char :=
  "00112233445566778899AABBCCDDEEFF".toList

/-- A node-created event for the path `/a`. -/
def createdEvent : WatcherEvent :=
  { type := ZOO_CREATED_EVENT, state := ZOO_CONNECTED_STATE, path := some "/a",
    client_id := { client_id := 0, passwd := List.replicate 16 0 } }

/-! ## Theorems -/

theorem NanAsciiString_of_bytes (s : List Char) (h : ∀ c ∈ s, c.toNat < 256) :
    NanAsciiString s = s := by
  unfold NanAsciiString
  conv_rhs => rw [← List.map_id s]
  apply List.map_congr_left
  intro c hc
  simp only [oneByte, id, Nat.mod_eq_of_lt (h c hc)]
  exact Char.ofNat_toNat c

theorem upperHexDigits_lt (c : Char) (h : c ∈ upperHexDigits) : c.toNat < 256 := by
  have h2 : ∀ x ∈ upperHexDigits, x.toNat < 256 := by decide
  exact h2 c h

theorem lowerHexDigits_lt (c : Char) (h : c ∈ lowerHexDigits) : c.toNat < 256 := by
  have h2 : ∀ x ∈ lowerHexDigits, x.toNat < 256 := by decide
  exact h2 c h

theorem hexToUchar_ucharToHex (b : Nat) (h : b < 256) :
    hexToUchar (fourBitsToHex ((b &&& 0xf0) >>> 4)) (fourBitsToHex (b &&& 0x0f)) = b := by
  interval_cases b <;> decide

theorem fourBitsToHex_high (b : Nat) (h : b < 256) :
    fourBitsToHex ((b &&& 0xf0) >>> 4) = upperHexDigits.getD (b / 16) '0' := by
  interval_cases b <;> decide

theorem fourBitsToHex_low (b : Nat) (h : b < 256) :
    fourBitsToHex (b &&& 0x0f) = upperHexDigits.getD (b % 16) '0' := by
  interval_cases b <;> decide

theorem upperHexDigits_getD_mem (d : Nat) (h : d < 16) :
    upperHexDigits.getD d '0' ∈ upperHexDigits := by
  interval_cases d <;> decide

theorem PasswordToHexString_length (p : List Nat) : (PasswordToHexString p).length = 32 := by
  simp [PasswordToHexString, ZOOKEEPER_PASSWORD_BYTE_COUNT, ucharToHex, List.range_succ]

theorem PasswordToHexString_getD (p : List Nat) (i : Nat) (hi : i < 16) :
    (PasswordToHexString p).getD (2 * i) (Char.ofNat 0)
        = fourBitsToHex ((p.getD i 0 &&& 0xf0) >>> 4)
      ∧ (PasswordToHexString p).getD (2 * i + 1) (Char.ofNat 0)
        = fourBitsToHex (p.getD i 0 &&& 0x0f) := by
  interval_cases i <;>
    simp [PasswordToHexString, ZOOKEEPER_PASSWORD_BYTE_COUNT, ucharToHex, List.range_succ]

theorem PasswordToHexString_mem (p : List Nat) (hlen : p.length = 16)
    (hb : ∀ b ∈ p, b < 256) : ∀ c ∈ PasswordToHexString p, c ∈ upperHexDigits := by
  intro c hc
  obtain ⟨k, hk, rfl⟩ := List.getElem_of_mem hc
  rw [PasswordToHexString_length] at hk
  have hi : k / 2 < 16 := by omega
  have h2 : k / 2 < p.length := by omega
  have hget : p.getD (k / 2) 0 = p[k / 2] := by
    simp [List.getD_eq_getElem?_getD, List.getElem?_eq_getElem h2]
  have hlt : p[k / 2] < 256 := hb _ (List.getElem_mem h2)
  obtain ⟨e0, e1⟩ := PasswordToHexString_getD p (k / 2) hi
  have hk32 : k < (PasswordToHexString p).length := by rw [PasswordToHexString_length]; omega
  have hd : (PasswordToHexString p).getD k (Char.ofNat 0) = (PasswordToHexString p)[k] := by
    simp [List.getD_eq_getElem?_getD, List.getElem?_eq_getElem hk32]
  rcases Nat.mod_two_eq_zero_or_one k with hm | hm
  · have hk2 : 2 * (k / 2) = k := by omega
    rw [hk2, hd, hget, fourBitsToHex_high _ hlt] at e0
    rw [e0]
    exact upperHexDigits_getD_mem _ (by omega)
  · have hk2 : 2 * (k / 2) + 1 = k := by omega
    rw [hk2, hd, hget, fourBitsToHex_low _ hlt] at e1
    rw [e1]
    exact upperHexDigits_getD_mem _ (by omega)

theorem HexStringToPassword_PasswordToHexString (p : List Nat) (hlen : p.length = 16)
    (hb : ∀ b ∈ p, b < 256) : HexStringToPassword (PasswordToHexString p) = p := by
  apply List.ext_getElem
  · simp [HexStringToPassword, ZOOKEEPER_PASSWORD_BYTE_COUNT, hlen]
  · intro i h1 h2
    have hi : i < 16 := by omega
    have hget : p.getD i 0 = p[i] := by
      simp [List.getD_eq_getElem?_getD, List.getElem?_eq_getElem h2]
    have hlt : p[i] < 256 := hb _ (List.getElem_mem h2)
    obtain ⟨e0, e1⟩ := PasswordToHexString_getD p i hi
    have hN : NanAsciiString (PasswordToHexString p) = PasswordToHexString p :=
      NanAsciiString_of_bytes _
        (fun c hc => upperHexDigits_lt c (PasswordToHexString_mem p hlen hb c hc))
    simp only [HexStringToPassword, hN, List.getElem_map, List.getElem_range, e0, e1, hget]
    exact hexToUchar_ucharToHex _ hlt

/-- C1: for every 16-byte password `p`, `HexStringToPassword (PasswordToHexString p) = p`;
`PasswordToHexString p` has exactly 32 characters, the characters at positions `2i` and
`2i+1` are the upper-case hexadecimal digits of the high and of the low nibble of byte `i`,
and every character is one of `0`-`9`, `A`-`F`. -/
theorem password_hex_roundtrip (p : List Nat) (hlen : p.length = 16)
    (hb : ∀ b ∈ p, b < 256) :
    HexStringToPassword (PasswordToHexString p) = p
    ∧ (PasswordToHexString p).length = 32
    ∧ (∀ i, i < 16 →
        (PasswordToHexString p).getD (2 * i) (Char.ofNat 0)
            = upperHexDigits.getD (p.getD i 0 / 16) '0'
        ∧ (PasswordToHexString p).getD (2 * i + 1) (Char.ofNat 0)
            = upperHexDigits.getD (p.getD i 0 % 16) '0')
    ∧ (∀ c ∈ PasswordToHexString p, c ∈ upperHexDigits) := by
  refine ⟨HexStringToPassword_PasswordToHexString p hlen hb, PasswordToHexString_length p,
    ?_, PasswordToHexString_mem p hlen hb⟩
  intro i hi
  have h2 : i < p.length := by omega
  have hget : p.getD i 0 = p[i] := by
    simp [List.getD_eq_getElem?_getD, List.getElem?_eq_getElem h2]
  have hlt : p.getD i 0 < 256 := by rw [hget]; exact hb _ (List.getElem_mem h2)
  obtain ⟨e0, e1⟩ := PasswordToHexString_getD p i hi
  rw [e0, e1, fourBitsToHex_high _ hlt, fourBitsToHex_low _ hlt]
  exact ⟨rfl, rfl⟩

theorem password_hex_roundtrip_witness :
    HexStringToPassword (PasswordToHexString samplePassword) = samplePassword
    ∧ (PasswordToHexString samplePassword).length = 32
    ∧ (∀ i, i < 16 →
        (PasswordToHexString samplePassword).getD (2 * i) (Char.ofNat 0)
            = upperHexDigits.getD (samplePassword.getD i 0 / 16) '0'
        ∧ (PasswordToHexString samplePassword).getD (2 * i + 1) (Char.ofNat 0)
            = upperHexDigits.getD (samplePassword.getD i 0 % 16) '0')
    ∧ (∀ c ∈ PasswordToHexString samplePassword, c ∈ upperHexDigits) :=
  password_hex_roundtrip samplePassword (by decide) (by decide)

theorem hexDigitChar_facts (d : Nat) (h : d < 16) :
    hexDigitValue (hexDigitChar d) = some d
    ∧ lowerHexDigits.indexOf (hexDigitChar d) = d
    ∧ hexDigitChar d ∈ lowerHexDigits
    ∧ isspace (hexDigitChar d) = false
    ∧ hexDigitChar d ≠ '-' ∧ hexDigitChar d ≠ '+'
    ∧ hexDigitChar d ≠ 'x' ∧ hexDigitChar d ≠ 'X'
    ∧ (hexDigitChar d = '0' → d = 0) := by
  interval_cases d <;> decide

theorem sprintf_llx_digits_allLowerHex (fuel v : Nat) :
    AllLowerHex (sprintf_llx_digits fuel v) := by
  induction fuel generalizing v with
  | zero => intro c hc; simp [sprintf_llx_digits] at hc
  | succ n ih =>
    intro c hc
    unfold sprintf_llx_digits at hc
    split at hc
    · rename_i hv
      simp only [List.mem_singleton] at hc
      exact ⟨v, hv, hc⟩
    · rcases List.mem_append.mp hc with h | h
      · exact ih _ c h
      · simp only [List.mem_singleton] at h
        exact ⟨v % 16, Nat.mod_lt _ (by decide), h⟩

theorem scanHexDigits_allLowerHex (l : List Char) (hl : AllLowerHex l) (acc k : Nat) :
    scanHexDigits l acc k
      = (l.foldl (fun a c => 16 * a + lowerHexDigits.indexOf c) acc, k + l.length) := by
  induction l generalizing acc k with
  | nil => simp [scanHexDigits]
  | cons c cs ih =>
    obtain ⟨d, hd, rfl⟩ := hl c (List.mem_cons_self _ _)
    have hf := hexDigitChar_facts d hd
    have hcs : AllLowerHex cs := fun x hx => hl x (List.mem_cons_of_mem _ hx)
    simp only [scanHexDigits, hf.1, List.foldl_cons, hf.2.1, List.length_cons]
    rw [ih hcs]
    congr 1
    · congr 1; omega
    · omega

theorem foldl_sprintf_llx_digits (fuel v : Nat) (hv : v < 16 ^ fuel) :
    (sprintf_llx_digits fuel v).foldl (fun a c => 16 * a + lowerHexDigits.indexOf c) 0 = v := by
  induction fuel generalizing v with
  | zero => simp at hv; simp [sprintf_llx_digits, hv]
  | succ n ih =>
    unfold sprintf_llx_digits
    split
    · rename_i h16
      simp [(hexDigitChar_facts v h16).2.1]
    · have hq : v / 16 < 16 ^ n := by
        rw [pow_succ] at hv
        exact Nat.div_lt_of_lt_mul (by omega)
      rw [List.foldl_append, ih _ hq]
      simp only [List.foldl_cons, List.foldl_nil,
        (hexDigitChar_facts (v % 16) (Nat.mod_lt _ (by decide))).2.1]
      omega

theorem sprintf_llx_digits_head (fuel v : Nat) (hv : v < 16 ^ (fuel + 1)) :
    ∃ d rest, d < 16 ∧ (v = 0 → rest = []) ∧ (d = 0 → v = 0)
      ∧ sprintf_llx_digits (fuel + 1) v = hexDigitChar d :: rest := by
  induction fuel generalizing v with
  | zero =>
    have h16 : v < 16 := by simpa using hv
    exact ⟨v, [], h16, fun _ => rfl, fun h => h, by simp [sprintf_llx_digits, h16]⟩
  | succ n ih =>
    unfold sprintf_llx_digits
    split
    · rename_i h16
      exact ⟨v, [], h16, fun _ => rfl, fun h => h, rfl⟩
    · rename_i h16
      have hq : v / 16 < 16 ^ (n + 1) := by
        rw [pow_succ] at hv
        exact Nat.div_lt_of_lt_mul (by omega)
      obtain ⟨d, rest, hd, -, h0, heq⟩ := ih _ hq
      refine ⟨d, rest ++ [hexDigitChar (v % 16)], hd, fun h => by omega, ?_, ?_⟩
      · intro hd0
        have := h0 hd0
        omega
      · rw [heq]; rfl

theorem sscanf_llx_sprintf_llx (u : Nat) (hu : u < 2 ^ 64) :
    sscanf_llx (sprintf_llx u) = some u := by
  have hall : AllLowerHex (sprintf_llx u) := sprintf_llx_digits_allLowerHex 16 u
  obtain ⟨d, rest, hd, -, -, heq⟩ := sprintf_llx_digits_head 15 u (by norm_num; omega)
  have hs : sprintf_llx u = hexDigitChar d :: rest := heq
  have hf := hexDigitChar_facts d hd
  have hscan := scanHexDigits_allLowerHex (sprintf_llx u) hall 0 0
  have hval : (sprintf_llx u).foldl (fun a c => 16 * a + lowerHexDigits.indexOf c) 0 = u :=
    foldl_sprintf_llx_digits 16 u (by norm_num; omega)
  rw [hval] at hscan
  have hpre : hasHexPrefix (hexDigitChar d :: rest) = false := by
    cases rest with
    | nil => simp [hasHexPrefix]
    | cons c cs =>
      have hc : c ∈ sprintf_llx u := by rw [hs]; simp
      obtain ⟨e, he, rfl⟩ := hall c hc
      have hg := hexDigitChar_facts e he
      simp [hasHexPrefix, hg.2.2.2.2.2.2.1, hg.2.2.2.2.2.2.2.1]
  have hdrop : (sprintf_llx u).dropWhile isspace = sprintf_llx u := by
    rw [hs, List.dropWhile_cons_of_neg (by simp [hf.2.2.2.1])]
  unfold sscanf_llx
  simp only [hdrop]
  rw [hs] at hscan ⊢
  simp only [List.head?_cons, Option.some.injEq, hf.2.2.2.2.1, hf.2.2.2.2.2.1, or_self,
    if_false, hpre, hscan, decide_False, Bool.false_eq_true]
  simp
  omega

/-- C2: for every 64-bit session identifier `id` (negative values included),
`StringToId (idAsString id) = id` whatever the previous content of the target, and
`idAsString id` is the lower-case base-16 rendering of the unsigned two's-complement
value of `id`: every character is one of `0`-`9`, `a`-`f`, the positional value of the
string is `id mod 2^64`, and a leading `0` occurs only in the string `0` itself. -/
theorem session_id_hex_roundtrip (id old : Int) (hlo : -2 ^ 63 ≤ id) (hhi : id < 2 ^ 63) :
    StringToId (idAsString id) old = id
    ∧ (∀ c ∈ idAsString id, c ∈ lowerHexDigits)
    ∧ hexStringValue (idAsString id) = (id % 2 ^ 64).toNat
    ∧ ((idAsString id).head? = some '0' → idAsString id = ['0']) := by
  have hu : (id % 2 ^ 64).toNat < 2 ^ 64 := by
    have h1 : id % 2 ^ 64 < 2 ^ 64 := Int.emod_lt_of_pos _ (by norm_num)
    have h2 : 0 ≤ id % 2 ^ 64 := Int.emod_nonneg _ (by norm_num)
    omega
  refine ⟨?_, ?_, ?_, ?_⟩
  · unfold StringToId idAsString
    rw [NanAsciiString_of_bytes _ (fun c hc => by
        obtain ⟨d, hd, rfl⟩ := sprintf_llx_digits_allLowerHex 16 _ c hc
        exact lowerHexDigits_lt _ (hexDigitChar_facts d hd).2.2.1),
      sscanf_llx_sprintf_llx _ hu]
    simp only
    have h2 : 0 ≤ id % 2 ^ 64 := Int.emod_nonneg _ (by norm_num)
    have h3 : (((id % 2 ^ 64).toNat : Nat) : Int) = id % 2 ^ 64 := Int.toNat_of_nonneg h2
    norm_num at hlo hhi h3 ⊢
    split <;> omega
  · intro c hc
    obtain ⟨d, hd, rfl⟩ := sprintf_llx_digits_allLowerHex 16 _ c hc
    exact (hexDigitChar_facts d hd).2.2.1
  · exact foldl_sprintf_llx_digits 16 _ (by norm_num; omega)
  · intro hh
    obtain ⟨d, rest, hd, h0, hz, heq⟩ :=
      sprintf_llx_digits_head 15 (id % 2 ^ 64).toNat (by norm_num; omega)
    have hs : idAsString id = hexDigitChar d :: rest := heq
    rw [hs] at hh ⊢
    simp only [List.head?_cons, Option.some.injEq] at hh
    have hd0 : d = 0 := (hexDigitChar_facts d hd).2.2.2.2.2.2.2.2 hh
    rw [h0 (hz hd0), hh]

theorem session_id_hex_roundtrip_witness :
    (-2 ^ 63 ≤ (-1 : Int) ∧ (-1 : Int) < 2 ^ 63)
    ∧ StringToId (idAsString (-1)) 0 = -1
    ∧ (∀ c ∈ idAsString (-1), c ∈ lowerHexDigits)
    ∧ hexStringValue (idAsString (-1)) = ((-1 : Int) % 2 ^ 64).toNat
    ∧ ((idAsString (-1)).head? = some '0' → idAsString (-1) = ['0']) :=
  ⟨by decide, session_id_hex_roundtrip (-1) 0 (by decide) (by decide)⟩


/-! ### The log only grows -/

@[simp] theorem record_log (zk : ZooKeeper) (e : Effect) : (zk.record e).log = zk.log ++ [e] :=
  rfl

theorem effectsSince_of_append (a b : ZooKeeper) (X : List Effect)
    (h : b.log = a.log ++ X) : effectsSince a b = X := by
  simp [effectsSince, h]

theorem yield_log (zk : ZooKeeper) (now : Int) (q : InterestOracle) :
    ∃ X, (yield zk now q).log = zk.log ++ X := by
  unfold yield
  split
  · exact ⟨[], by simp⟩
  · cases hp : zk.zk_io.active <;> by_cases hrc : (q zk.zhandle).rc = 0 <;> by_cases hfd : (q zk.zhandle).fd = -1 <;>
      simp [hp, hrc, hfd, uv_poll_stop, uv_poll_init, uv_poll_start, uv_timer_start,
        ZooKeeper.record]

theorem realInit_log (zk : ZooKeeper) (hostPort : String) (t : Int) (c : clientid_t)
    (reply : Option Nat) (now : Int) (q : InterestOracle) :
    ∃ X, (realInit zk hostPort t c reply now q).2.log
      = zk.log ++ Effect.zookeeper_init hostPort t c :: X := by
  unfold realInit
  cases reply with
  | none => exact ⟨[], by simp⟩
  | some h =>
    obtain ⟨X, hX⟩ := yield_log
      (uv_timer_init (Ref { zk.record (.zookeeper_init hostPort t c) with
          myid := c, zhandle := some h })) now q
    refine ⟨[Effect.Ref, Effect.uv_timer_init] ++ X, ?_⟩
    simp only [Ref, uv_timer_init, ZooKeeper.record] at hX ⊢
    rw [hX]
    simp

/-! ### Validation in `Init` -/

theorem Init_object_log_of_ok (zk : ZooKeeper) (o : InitObject) (reply : Option Nat)
    (now : Int) (q : InterestOracle) (h : ¬ ConfigError o) :
    (∀ text, (Init zk (.object o) reply now q).1 ≠ .threw text)
    ∧ ∃ X, (Init zk (.object o) reply now q).2.log
        = zk.log ++ [Effect.zoo_set_debug_level o.debug_level,
            Effect.zoo_deterministic_conn_order o.host_order_deterministic,
            Effect.zookeeper_init o.connect (effectiveTimeout o) (suppliedClient o)] ++ X := by
  obtain ⟨dl, hod, conn, tmo, cid, cpw⟩ := o
  cases cid with
  | none =>
    cases cpw with
    | some pw => exact absurd (Or.inl (by simp)) h
    | none =>
      obtain ⟨X, hX⟩ := realInit_log
        ((zk.record (.zoo_set_debug_level dl)).record (.zoo_deterministic_conn_order hod))
        conn (if tmo = 0 then 20000 else tmo)
        { client_id := 0, passwd := List.replicate 16 0 } reply now q
      simp only [Init, effectiveTimeout, suppliedClient]
      generalize realInit _ _ _ _ reply now q = res at hX ⊢
      obtain ⟨b, z⟩ := res
      cases b <;> exact ⟨by simp, X, by simpa using hX⟩
  | some id =>
    cases cpw with
    | none => exact absurd (Or.inl (by simp)) h
    | some pw =>
      have hlen : pw.length = 32 := by
        by_contra hne
        exact h (Or.inr ⟨id, pw, rfl, rfl, hne⟩)
      obtain ⟨X, hX⟩ := realInit_log
        ((zk.record (.zoo_set_debug_level dl)).record (.zoo_deterministic_conn_order hod))
        conn (if tmo = 0 then 20000 else tmo)
        { client_id := StringToId id 0, passwd := HexStringToPassword pw } reply now q
      simp only [Init, effectiveTimeout, suppliedClient, hlen, ZOOKEEPER_PASSWORD_BYTE_COUNT]
      generalize realInit _ _ _ _ reply now q = res at hX ⊢
      obtain ⟨b, z⟩ := res
      cases b <;> exact ⟨by simp, X, by simpa using hX⟩

theorem Init_object_of_error (zk : ZooKeeper) (o : InitObject) (reply : Option Nat)
    (now : Int) (q : InterestOracle) (h : ConfigError o) :
    (∃ text, (Init zk (.object o) reply now q).1 = .threw text)
    ∧ (Init zk (.object o) reply now q).2
        = (zk.record (.zoo_set_debug_level o.debug_level)).record
            (.zoo_deterministic_conn_order o.host_order_deterministic) := by
  obtain ⟨dl, hod, conn, tmo, cid, cpw⟩ := o
  rcases h with h | ⟨id, pw, h1, h2, h3⟩
  · cases cid <;> cases cpw <;> simp at h <;> simp [Init]
  · simp only at h1 h2
    subst h1 h2
    simp [Init, h3, ZOOKEEPER_PASSWORD_BYTE_COUNT]

/-- C3: for every call of `init` with an object argument, the call throws a
configuration error exactly when exactly one of `client_id` / `client_password` is
supplied or both are and the password string is not 32 characters long.  In that case
the handle, the reference count, the poll watcher and the timer of the session are left
as they were (for a fresh session: no handle, no reference, nothing armed) and the only
calls made are the two process-wide settings; in every other case `zookeeper_init` is
called. -/
theorem init_config_error_iff (zk : ZooKeeper) (o : InitObject) (reply : Option Nat)
    (now : Int) (q : InterestOracle) :
    ((∃ text, (Init zk (.object o) reply now q).1 = .threw text) ↔ ConfigError o)
    ∧ (ConfigError o →
        (Init zk (.object o) reply now q).2.zhandle = zk.zhandle
        ∧ (Init zk (.object o) reply now q).2.refs = zk.refs
        ∧ (Init zk (.object o) reply now q).2.zk_io = zk.zk_io
        ∧ (Init zk (.object o) reply now q).2.zk_timer = zk.zk_timer
        ∧ effectsSince zk (Init zk (.object o) reply now q).2
            = [Effect.zoo_set_debug_level o.debug_level,
               Effect.zoo_deterministic_conn_order o.host_order_deterministic])
    ∧ (ConfigError o →
        (Init ZooKeeper.new (.object o) reply now q).2.zhandle = none
        ∧ (Init ZooKeeper.new (.object o) reply now q).2.refs = 0
        ∧ (Init ZooKeeper.new (.object o) reply now q).2.zk_io.active = false
        ∧ (Init ZooKeeper.new (.object o) reply now q).2.zk_timer.active = false)
    ∧ (¬ ConfigError o →
        Effect.zookeeper_init o.connect (effectiveTimeout o) (suppliedClient o)
          ∈ effectsSince zk (Init zk (.object o) reply now q).2) := by
  refine ⟨⟨?_, fun h => (Init_object_of_error zk o reply now q h).1⟩, ?_, ?_, ?_⟩
  · rintro ⟨text, ht⟩
    by_contra hne
    exact (Init_object_log_of_ok zk o reply now q hne).1 text ht
  · intro h
    rw [(Init_object_of_error zk o reply now q h).2]
    refine ⟨rfl, rfl, rfl, rfl, ?_⟩
    exact effectsSince_of_append _ _ _ (by simp)
  · intro h
    rw [(Init_object_of_error ZooKeeper.new o reply now q h).2]
    exact ⟨rfl, rfl, rfl, rfl⟩
  · intro h
    obtain ⟨X, hX⟩ := (Init_object_log_of_ok zk o reply now q h).2
    rw [effectsSince_of_append _ _ _ (by rw [hX, List.append_assoc])]
    simp

theorem init_config_error_iff_witness :
    ConfigError idOnlyInit
    ∧ (∃ text, (Init ZooKeeper.new (.object idOnlyInit) (some 7) 0 sampleInterest).1
        = .threw text)
    ∧ (Init ZooKeeper.new (.object idOnlyInit) (some 7) 0 sampleInterest).2.zhandle = none :=
  have hc : ConfigError idOnlyInit := Or.inl (by decide)
  have h := init_config_error_iff ZooKeeper.new idOnlyInit (some 7) 0 sampleInterest
  ⟨hc, h.1.2 hc, (h.2.2.1 hc).1⟩

/-- A byte of the upper half is negative as a `char` and takes the branch `h <= '9'`:
for the code unit `U+00E9` the digit is `(0xE9 - 256 - 48) mod 256 = 185`, and a password
of 32 such units decodes to 16 bytes `185`. -/
theorem hexToFourBits_upper_half :
    hexToFourBits (Char.ofNat 0xE9) = 185
    ∧ HexStringToPassword (List.replicate 32 (Char.ofNat 0xE9)) = List.replicate 16 185 := by
  decide

/-- C4, as the claim states it, fails: with an identity supplied, the password made of 32
letters `z` (no hexadecimal digit among them) is accepted; `init` returns `this`, the
handle answered by `zookeeper_init` is installed and the reference is taken. -/
theorem init_accepts_non_hex_password :
    nonHexPasswordInit.client_id.isSome = true
    ∧ nonHexPasswordInit.client_password = some nonHexPassword
    ∧ nonHexPassword.length = 32
    ∧ (∀ c ∈ nonHexPassword, hexDigitValue c = none)
    ∧ (Init ZooKeeper.new (.object nonHexPasswordInit) (some 7) 0 sampleInterest).1
        = .returnedThis
    ∧ (Init ZooKeeper.new (.object nonHexPasswordInit) (some 7) 0 sampleInterest).2.zhandle
        = some 7
    ∧ (Init ZooKeeper.new (.object nonHexPasswordInit) (some 7) 0 sampleInterest).2.refs = 1 := by
  decide

/-- C4, amended: when identity and password are both supplied, `init` throws exactly when
the password string is not 32 characters long, and then calls nothing but the two
process-wide settings and leaves the handle as it was.  A password of 32 characters is
accepted whatever its characters: `zookeeper_init` is called with the bytes
`HexStringToPassword` computes from it. -/
theorem init_password_length_check (zk : ZooKeeper) (o : InitObject) (id pw : List Char)
    (h1 : o.client_id = some id) (h2 : o.client_password = some pw) (reply : Option Nat)
    (now : Int) (q : InterestOracle) :
    ((∃ text, (Init zk (.object o) reply now q).1 = .threw text) ↔ pw.length ≠ 32)
    ∧ (pw.length ≠ 32 →
        (Init zk (.object o) reply now q).2.zhandle = zk.zhandle
        ∧ effectsSince zk (Init zk (.object o) reply now q).2
            = [Effect.zoo_set_debug_level o.debug_level,
               Effect.zoo_deterministic_conn_order o.host_order_deterministic])
    ∧ (pw.length = 32 →
        Effect.zookeeper_init o.connect (effectiveTimeout o)
            { client_id := StringToId id 0, passwd := HexStringToPassword pw }
          ∈ effectsSince zk (Init zk (.object o) reply now q).2) := by
  have herr : pw.length ≠ 32 → ConfigError o := fun h => Or.inr ⟨id, pw, h1, h2, h⟩
  have hok : pw.length = 32 → ¬ ConfigError o := by
    rintro h (hc | ⟨id', pw', e1, e2, e3⟩)
    · simp [h1, h2] at hc
    · rw [h2] at e2
      cases e2
      exact e3 h
  refine ⟨⟨?_, fun h => (Init_object_of_error zk o reply now q (herr h)).1⟩, ?_, ?_⟩
  · rintro ⟨text, ht⟩ hlen
    exact (Init_object_log_of_ok zk o reply now q (hok hlen)).1 text ht
  · intro h
    rw [(Init_object_of_error zk o reply now q (herr h)).2]
    exact ⟨rfl, effectsSince_of_append _ _ _ (by simp)⟩
  · intro h
    obtain ⟨X, hX⟩ := (Init_object_log_of_ok zk o reply now q (hok h)).2
    rw [effectsSince_of_append _ _ _ (by rw [hX, List.append_assoc])]
    have hs : suppliedClient o
        = { client_id := StringToId id 0, passwd := HexStringToPassword pw } := by
      simp [suppliedClient, h1, h2]
    simp [hs]

theorem init_password_length_check_witness :
    nonHexPasswordInit.client_id = some ['1', 'f']
    ∧ nonHexPasswordInit.client_password = some nonHexPassword
    ∧ ((∃ text, (Init ZooKeeper.new (.object nonHexPasswordInit) (some 7) 0 sampleInterest).1
          = .threw text) ↔ nonHexPassword.length ≠ 32)
    ∧ (nonHexPassword.length = 32 →
        Effect.zookeeper_init nonHexPasswordInit.connect (effectiveTimeout nonHexPasswordInit)
            { client_id := StringToId ['1', 'f'] 0,
              passwd := HexStringToPassword nonHexPassword }
          ∈ effectsSince ZooKeeper.new
              (Init ZooKeeper.new (.object nonHexPasswordInit) (some 7) 0 sampleInterest).2) :=
  have h := init_password_length_check ZooKeeper.new nonHexPasswordInit ['1', 'f']
    nonHexPassword rfl rfl (some 7) 0 sampleInterest
  ⟨rfl, rfl, h.1, h.2.2⟩

/-! ### Close -/

theorem realClose_of_closed (zk : ZooKeeper) (code : Int) (h : zk.is_closed = true) :
    realClose zk code = zk := by
  simp [realClose, h]

/-- What `realClose` does to an open session that owns a handle. -/
theorem realClose_open (zk : ZooKeeper) (zh : Nat) (code : Int)
    (hh : zk.zhandle = some zh) (hc : zk.is_closed = false) :
    (realClose zk code).log
        = zk.log ++ ((if zk.zk_timer.active then [Effect.uv_timer_stop] else [])
            ++ [Effect.zookeeper_close zh]
            ++ (if zk.zk_io.active then [Effect.uv_poll_stop] else [])
            ++ [Effect.Unref, Effect.emit on_closed (.int code)])
    ∧ (realClose zk code).is_closed = true
    ∧ (realClose zk code).zhandle = none
    ∧ (realClose zk code).refs = zk.refs - 1
    ∧ (realClose zk code).zk_timer.active = false
    ∧ (realClose zk code).zk_io.active = false := by
  cases ht : zk.zk_timer.active <;> cases hp : zk.zk_io.active <;>
    simp [realClose, hh, hc, ht, hp, uv_timer_stop, uv_poll_stop, Unref, DoEmitClose, DoEmit,
      ZooKeeper.record]

theorem realClose_open_effects (zk : ZooKeeper) (zh : Nat) (code : Int)
    (hh : zk.zhandle = some zh) (hc : zk.is_closed = false) :
    closeNotifications (effectsSince zk (realClose zk code)) = [.int code]
    ∧ emittedNames (effectsSince zk (realClose zk code)) = [on_closed]
    ∧ handleReleases (effectsSince zk (realClose zk code)) = [zh]
    ∧ unrefCalls (effectsSince zk (realClose zk code)) = 1 := by
  rw [effectsSince_of_append _ _ _ (realClose_open zk zh code hh hc).1]
  cases zk.zk_timer.active <;> cases zk.zk_io.active <;>
    simp [closeNotifications, emittedNames, handleReleases, unrefCalls]

/-- C5: on a session that owns a handle and is not closed, `close(c1)` followed by
`close(c2)` emits exactly one `close` notification, carrying `c1`, calls
`zookeeper_close` exactly once (on the session's handle) and `Unref` exactly once; the
second call returns the session unchanged and logs nothing. -/
theorem close_idempotent (zk : ZooKeeper) (zh : Nat) (c1 c2 : Int)
    (hh : zk.zhandle = some zh) (hc : zk.is_closed = false) :
    realClose (realClose zk c1) c2 = realClose zk c1
    ∧ effectsSince (realClose zk c1) (realClose (realClose zk c1) c2) = []
    ∧ closeNotifications (effectsSince zk (realClose (realClose zk c1) c2)) = [.int c1]
    ∧ handleReleases (effectsSince zk (realClose (realClose zk c1) c2)) = [zh]
    ∧ unrefCalls (effectsSince zk (realClose (realClose zk c1) c2)) = 1
    ∧ (realClose (realClose zk c1) c2).zhandle = none
    ∧ (realClose (realClose zk c1) c2).refs = zk.refs - 1
    ∧ (realClose (realClose zk c1) c2).is_closed = true := by
  have ho := realClose_open zk zh c1 hh hc
  have he := realClose_open_effects zk zh c1 hh hc
  have h2 : realClose (realClose zk c1) c2 = realClose zk c1 :=
    realClose_of_closed _ _ ho.2.1
  rw [h2]
  exact ⟨rfl, by simp [effectsSince], he.1, he.2.2.1, he.2.2.2, ho.2.2.1, ho.2.2.2.1, ho.2.1⟩

theorem close_idempotent_witness :
    openSession.zhandle = some 7 ∧ openSession.is_closed = false
    ∧ realClose (realClose openSession 0) 5 = realClose openSession 0
    ∧ closeNotifications (effectsSince openSession (realClose (realClose openSession 0) 5))
        = [.int 0] :=
  have h := close_idempotent openSession 7 0 5 (by decide) (by decide)
  ⟨by decide, by decide, h.1, h.2.2.1⟩

/-! ### No I/O after close -/

theorem yield_of_closed (zk : ZooKeeper) (now : Int) (q : InterestOracle)
    (h : zk.is_closed = true) : yield zk now q = zk := by
  simp [yield, h]

theorem SessionInv_record (b : Bool) (zk : ZooKeeper) (e : Effect) (h : SessionInv b zk) :
    SessionInv b (zk.record e) := h

theorem SessionInv_realClose (b : Bool) (zk : ZooKeeper) (code : Int) (h : SessionInv b zk) :
    SessionInv b (realClose zk code) := by
  obtain ⟨h1, h2, h3⟩ := h
  by_cases hc : zk.is_closed = true
  · rw [realClose_of_closed zk code hc]
    exact ⟨h1, h2, h3⟩
  · cases hz : zk.zhandle with
    | none =>
      obtain ⟨q1, q2⟩ := h2 hz
      simp [SessionInv, Quiet, realClose, hc, hz, q1, q2]
    | some zh =>
      have hc' : zk.is_closed = false := by simpa using hc
      obtain ⟨-, g2, g3, -, g5, g6⟩ := realClose_open zk zh code hz hc'
      exact ⟨fun _ => ⟨g6, g5⟩, fun _ => ⟨g6, g5⟩, fun _ => g3⟩

theorem yield_fields (zk : ZooKeeper) (now : Int) (q : InterestOracle) :
    (yield zk now q).is_closed = zk.is_closed ∧ (yield zk now q).zhandle = zk.zhandle := by
  unfold yield
  split
  · exact ⟨rfl, rfl⟩
  · cases hp : zk.zk_io.active <;> by_cases hrc : (q zk.zhandle).rc = 0 <;>
      by_cases hfd : (q zk.zhandle).fd = -1 <;>
      simp [hp, hrc, hfd, uv_poll_stop, uv_poll_init, uv_poll_start, uv_timer_start,
        ZooKeeper.record]

theorem yield_null_handle (zk : ZooKeeper) (now : Int) (q : InterestOracle)
    (hq : RejectsNullHandle q) (hz : zk.zhandle = none) (hc : zk.is_closed = false) :
    (yield zk now q).zk_io.active = false
    ∧ (yield zk now q).zk_timer = zk.zk_timer := by
  have hrc : (q none).rc ≠ 0 := hq
  cases hp : zk.zk_io.active <;>
    simp [yield, hc, hz, hp, hrc, uv_poll_stop, ZooKeeper.record]

theorem SessionInv_yield (b : Bool) (zk : ZooKeeper) (now : Int) (q : InterestOracle)
    (hq : RejectsNullHandle q) (h : SessionInv b zk) : SessionInv b (yield zk now q) := by
  obtain ⟨h1, h2, h3⟩ := h
  by_cases hc : zk.is_closed = true
  · rw [yield_of_closed zk now q hc]
    exact ⟨h1, h2, h3⟩
  · have hc' : zk.is_closed = false := by simpa using hc
    obtain ⟨f1, f2⟩ := yield_fields zk now q
    refine ⟨fun hcl => absurd (f1 ▸ hcl) hc, ?_, fun hb => f2 ▸ h3 hb⟩
    intro hz
    rw [f2] at hz
    obtain ⟨g1, g2⟩ := yield_null_handle zk now q hq hz hc'
    exact ⟨g1, by rw [g2]; exact (h2 hz).2⟩

theorem SessionInv_main_watcher (b : Bool) (zk : ZooKeeper) (ev : WatcherEvent)
    (h : SessionInv b zk) : SessionInv b (main_watcher zk ev) := by
  unfold main_watcher
  repeat' split
  all_goals first
    | exact SessionInv_realClose b zk _ h
    | exact h
    | (cases ev.path <;> exact h)

theorem SessionInv_foldl_main_watcher (b : Bool) (evs : List WatcherEvent) (zk : ZooKeeper)
    (h : SessionInv b zk) : SessionInv b (evs.foldl main_watcher zk) := by
  induction evs generalizing zk with
  | nil => exact h
  | cons ev rest ih => exact ih _ (SessionInv_main_watcher b zk ev h)

theorem SessionInv_zk_io_cb (b : Bool) (zk : ZooKeeper) (status revents : Int)
    (p : ProcessReply) (now : Int) (q : InterestOracle) (hq : RejectsNullHandle q)
    (h : SessionInv b zk) : SessionInv b (zk_io_cb zk status revents p now q) :=
  SessionInv_yield b _ now q hq
    (SessionInv_foldl_main_watcher b p.delivered _ (SessionInv_record b zk _ h))

theorem SessionInv_zk_timer_cb (b : Bool) (zk : ZooKeeper) (now : Int) (q : InterestOracle)
    (hq : RejectsNullHandle q) (ha : zk.zk_timer.active = true) (h : SessionInv b zk) :
    SessionInv b (zk_timer_cb zk now q) := by
  unfold zk_timer_cb
  simp only
  split
  · exact SessionInv_yield b zk now q hq h
  · obtain ⟨h1, h2, h3⟩ := h
    have hc : zk.is_closed ≠ true := fun hc => by
      have := (h1 hc).2
      rw [ha] at this
      cases this
    have hz : zk.zhandle ≠ none := fun hz => by
      have := (h2 hz).2
      rw [ha] at this
      cases this
    exact ⟨fun hcl => absurd hcl hc, fun hzn => absurd hzn hz, h3⟩

theorem SessionInv_realInit (zk : ZooKeeper) (hostPort : String) (t : Int) (c : clientid_t)
    (reply : Option Nat) (now : Int) (q : InterestOracle) (hq : RejectsNullHandle q)
    (h : SessionInv false zk) :
    SessionInv true (realInit zk hostPort t c reply now q).2 := by
  obtain ⟨-, h2, h3⟩ := h
  obtain ⟨q1, q2⟩ := h2 (h3 rfl)
  cases reply with
  | none =>
    simp only [realInit]
    exact ⟨fun _ => ⟨q1, q2⟩, fun _ => ⟨q1, q2⟩, fun hb => by cases hb⟩
  | some zh =>
    simp only [realInit]
    apply SessionInv_yield true _ now q hq
    refine ⟨fun _ => ⟨q1, rfl⟩, fun hz => ?_, fun hb => by cases hb⟩
    simp [uv_timer_init, Ref, ZooKeeper.record] at hz

theorem SessionInv_Init (zk : ZooKeeper) (args : InitArgs) (reply : Option Nat) (now : Int)
    (q : InterestOracle) (hq : RejectsNullHandle q) (h : SessionInv false zk) :
    SessionInv true (Init zk args reply now q).2
    ∧ ∀ text, (Init zk args reply now q).1 = .threw text →
        SessionInv false (Init zk args reply now q).2 := by
  have hup : ∀ z : ZooKeeper, SessionInv false z → SessionInv true z :=
    fun z hz => ⟨hz.1, hz.2.1, fun hb => by cases hb⟩
  cases args with
  | missing => exact ⟨hup _ h, fun _ _ => h⟩
  | nonObject => exact ⟨hup _ h, fun _ _ => h⟩
  | object o =>
    by_cases hce : ConfigError o
    · rw [(Init_object_of_error zk o reply now q hce).2]
      exact ⟨hup _ h, fun _ _ => h⟩
    · refine ⟨?_, fun text ht => absurd ht ((Init_object_log_of_ok zk o reply now q hce).1 text)⟩
      obtain ⟨dl, hod, conn, tmo, cid, cpw⟩ := o
      have hrec : SessionInv false
          ((zk.record (.zoo_set_debug_level dl)).record (.zoo_deterministic_conn_order hod)) := h
      cases cid with
      | none =>
        cases cpw with
        | some pw => exact absurd (Or.inl (by simp)) hce
        | none =>
          have hi := SessionInv_realInit _ conn (if tmo = 0 then 20000 else tmo)
            { client_id := 0, passwd := List.replicate 16 0 } reply now q hq hrec
          simp only [Init]
          generalize realInit _ _ _ _ reply now q = res at hi ⊢
          obtain ⟨bb, z⟩ := res
          cases bb <;> exact hi
      | some id =>
        cases cpw with
        | none => exact absurd (Or.inl (by simp)) hce
        | some pw =>
          have hlen : pw.length = 32 := by
            by_contra hne
            exact hce (Or.inr ⟨id, pw, rfl, rfl, hne⟩)
          have hi := SessionInv_realInit _ conn (if tmo = 0 then 20000 else tmo)
            { client_id := StringToId id 0, passwd := HexStringToPassword pw } reply now q hq
            hrec
          simp only [Init, hlen, ZOOKEEPER_PASSWORD_BYTE_COUNT]
          generalize realInit _ _ _ _ reply now q = res at hi ⊢
          obtain ⟨bb, z⟩ := res
          cases bb <;> exact hi

theorem SessionInv_of_Reachable (b : Bool) (zk : ZooKeeper) (h : Reachable b zk) :
    SessionInv b zk := by
  induction h with
  | fresh => exact ⟨fun _ => ⟨rfl, rfl⟩, fun _ => ⟨rfl, rfl⟩, fun _ => rfl⟩
  | init_threw b zk args reply now q text _ hq ht ih =>
    cases b with
    | false => exact (SessionInv_Init zk args reply now q hq ih).2 text ht
    | true =>
      cases args with
      | missing => exact ih
      | nonObject => exact ih
      | object o =>
        by_cases hce : ConfigError o
        · rw [(Init_object_of_error zk o reply now q hce).2]
          exact ih
        · exact absurd ht ((Init_object_log_of_ok zk o reply now q hce).1 text)
  | init zk args reply now q _ hq ih => exact (SessionInv_Init zk args reply now q hq ih).1
  | close b zk code _ ih => exact SessionInv_realClose b zk code ih
  | yield b zk now q _ hq ih => exact SessionInv_yield b zk now q hq ih
  | io b zk status revents p now q _ hq _ ih =>
    exact SessionInv_zk_io_cb b zk status revents p now q hq ih
  | timer b zk now q _ hq ha ih => exact SessionInv_zk_timer_cb b zk now q hq ha ih
  | watcher b zk ev _ ih => exact SessionInv_main_watcher b zk ev ih

/-- C6: in every state reachable from a fresh session by `init` (reaching `realInit` at
most once), `close`, `yield`, `zk_io_cb` and `zk_timer_cb` (each fired only while its
watcher is active, `zk_io_cb` delivering any `main_watcher` events in the middle of its
processing step) and `main_watcher` events, against a library that answers an error to
`zookeeper_interest` on the `NULL` handle: a closed session has neither its poll watcher
nor its timer armed, and `yield` on it returns it unchanged: it queries nothing and arms
nothing. -/
theorem closed_session_schedules_nothing (b : Bool) (zk : ZooKeeper) (h : Reachable b zk)
    (hc : zk.is_closed = true) :
    zk.zk_io.active = false ∧ zk.zk_timer.active = false
    ∧ ∀ (now : Int) (q : InterestOracle),
        yield zk now q = zk ∧ effectsSince zk (yield zk now q) = [] := by
  obtain ⟨h1, h2⟩ := (SessionInv_of_Reachable b zk h).1 hc
  refine ⟨h1, h2, fun now q => ?_⟩
  rw [yield_of_closed zk now q hc]
  exact ⟨rfl, by simp [effectsSince]⟩

theorem closed_session_schedules_nothing_witness :
    Reachable true expiredDuringIo ∧ expiredDuringIo.is_closed = true
    ∧ expiredDuringIo.zk_io.active = false ∧ expiredDuringIo.zk_timer.active = false
    ∧ ∀ (now : Int) (q : InterestOracle),
        yield expiredDuringIo now q = expiredDuringIo
        ∧ effectsSince expiredDuringIo (yield expiredDuringIo now q) = [] :=
  have hq : RejectsNullHandle sampleInterest := by
    show (sampleInterest none).rc ≠ 0
    decide
  have hr : Reachable true expiredDuringIo :=
    Reachable.io true openSession 0 1 { rc := 0, delivered := [expiredEvent] } 10
      sampleInterest
      (Reachable.init ZooKeeper.new (.object plainInit) (some 7) 0 sampleInterest
        Reachable.fresh hq)
      hq (by decide)
  ⟨hr, by decide, closed_session_schedules_nothing true expiredDuringIo hr (by decide)⟩

/-! ### Forced close by the main watcher -/

/-- C7: on a session that owns a handle and is not closed, a session event whose state is
auth-failed or expired makes `main_watcher` close the session: the only notification
emitted is one `close` carrying that state code (so no `connect` and no `connecting`),
`zookeeper_close` is called exactly once on the session's handle, the handle is gone
and the session is closed; any later `close` returns the session unchanged and logs
nothing. -/
theorem main_watcher_forced_close (zk : ZooKeeper) (zh : Nat) (ev : WatcherEvent)
    (hh : zk.zhandle = some zh) (hc : zk.is_closed = false)
    (ht : ev.type = ZOO_SESSION_EVENT)
    (hs : ev.state = ZOO_AUTH_FAILED_STATE ∨ ev.state = ZOO_EXPIRED_SESSION_STATE) :
    closeNotifications (effectsSince zk (main_watcher zk ev)) = [.int ev.state]
    ∧ emittedNames (effectsSince zk (main_watcher zk ev)) = [on_closed]
    ∧ handleReleases (effectsSince zk (main_watcher zk ev)) = [zh]
    ∧ (main_watcher zk ev).zhandle = none
    ∧ (main_watcher zk ev).is_closed = true
    ∧ (∀ code : Int,
        realClose (main_watcher zk ev) code = main_watcher zk ev
        ∧ effectsSince (main_watcher zk ev) (realClose (main_watcher zk ev) code) = [])
    ∧ Close (main_watcher zk ev) = main_watcher zk ev := by
  have hm : main_watcher zk ev = realClose zk ev.state := by
    rcases hs with hs | hs <;>
      simp [main_watcher, ht, hs, ZOO_AUTH_FAILED_STATE, ZOO_EXPIRED_SESSION_STATE,
        ZOO_CONNECTED_STATE, ZOO_CONNECTING_STATE]
  rw [hm]
  have ho := realClose_open zk zh ev.state hh hc
  have he := realClose_open_effects zk zh ev.state hh hc
  have hno : ∀ code : Int, realClose (realClose zk ev.state) code = realClose zk ev.state :=
    fun code => realClose_of_closed _ code ho.2.1
  refine ⟨he.1, he.2.1, he.2.2.1, ho.2.2.1, ho.2.1, fun code => ?_, hno 0⟩
  rw [hno code]
  exact ⟨rfl, by simp [effectsSince]⟩

theorem main_watcher_forced_close_witness :
    openSession.zhandle = some 7 ∧ openSession.is_closed = false
    ∧ expiredEvent.type = ZOO_SESSION_EVENT
    ∧ closeNotifications (effectsSince openSession (main_watcher openSession expiredEvent))
        = [.int expiredEvent.state]
    ∧ emittedNames (effectsSince openSession (main_watcher openSession expiredEvent))
        = [on_closed]
    ∧ Close (main_watcher openSession expiredEvent) = main_watcher openSession expiredEvent :=
  have h := main_watcher_forced_close openSession 7 expiredEvent (by decide) (by decide)
    (by decide) (Or.inr (by decide))
  ⟨by decide, by decide, by decide, h.1, h.2.1, h.2.2.2.2.2.2⟩

/-! ### Completion trampolines -/

theorem ResolvesOnce_epilog (zk : ZooKeeper) (cb : NanCallback) (rc : Int) (msg : String)
    (payload : List JsValue) :
    ResolvesOnce zk (some (CALLBACK_EPILOG zk cb (.int rc :: .str msg :: payload))) cb rc msg :=
  ⟨_, payload, rfl, by simp [CALLBACK_EPILOG, effectsSince, callbackCalls],
    by simp [CALLBACK_EPILOG, effectsSince, callbackDeletes]⟩

/-- The whole log of `void_completion` for a registered callback. -/
theorem void_completion_log (zerror : Int → String) (zk : ZooKeeper) (rc : Int)
    (cb : NanCallback) (type : Int) (buf : Option ACL_vector) (hcb : cb.hidden_zk = true) :
    ∃ z, void_completion zerror zk rc { cb := some cb, type := type, data := buf } = some z
      ∧ effectsSince zk z
          = (if type = ZOO_SETACL_OP then
                [Effect.deallocate_ACL_vector buf, Effect.free_data buf]
              else [])
            ++ [Effect.call cb.fn [.int rc, .str (zerror rc)], Effect.delete_callback cb.fn,
                Effect.free_completion_data { cb := some cb, type := type, data := buf }] := by
  by_cases ht : type = ZOO_SETACL_OP <;>
    simp [void_completion, CALLBACK_PROLOG, CALLBACK_EPILOG, hcb, ht, effectsSince]

/-- The six trampolines other than the ACL one, given a registered callback, run to their
end, invoke the callback exactly once with arguments that start with the result code and
the library's message for it, and delete the callback exactly once, for every result code
and every payload, present or absent; the stat trampoline reads the stat whenever the code
is `ZOK`, so there it is so when a success code comes with a stat.  The void trampoline
also frees its completion record exactly once, and frees the ACL buffer of the record
exactly once if the operation tag is `ZOO_SETACL_OP` and not at all otherwise. -/
theorem other_completions_resolve_once (zerror : Int → String) (zk : ZooKeeper) (rc : Int)
    (cb : NanCallback) (hcb : cb.hidden_zk = true) (value : Option String)
    (stat : Option Stat) (bytes : Option (List Nat)) (len : Int)
    (strings : Option String_vector) (type : Int) (buf : Option ACL_vector) :
    ResolvesOnce zk (string_completion zerror zk rc value (some cb)) cb rc (zerror rc)
    ∧ ((rc = ZOK → stat.isSome = true) →
        ResolvesOnce zk (stat_completion zerror zk rc stat (some cb)) cb rc (zerror rc))
    ∧ ResolvesOnce zk (data_completion zerror zk rc bytes len stat (some cb)) cb rc (zerror rc)
    ∧ ResolvesOnce zk (strings_completion zerror zk rc strings (some cb)) cb rc (zerror rc)
    ∧ ResolvesOnce zk (strings_stat_completion zerror zk rc strings stat (some cb)) cb rc
        (zerror rc)
    ∧ ResolvesOnce zk
        (void_completion zerror zk rc { cb := some cb, type := type, data := buf }) cb rc
        (zerror rc)
    ∧ (∃ z, void_completion zerror zk rc { cb := some cb, type := type, data := buf } = some z
        ∧ completionFrees (effectsSince zk z)
            = [{ cb := some cb, type := type, data := buf }]
        ∧ dataFrees (effectsSince zk z) = (if type = ZOO_SETACL_OP then [buf] else [])
        ∧ aclDeallocations (effectsSince zk z)
            = (if type = ZOO_SETACL_OP then [buf] else [])) := by
  refine ⟨?_, ?_, ?_, ?_, ?_, ?_, ?_⟩
  · simp only [string_completion, CALLBACK_PROLOG, hcb, if_true]
    exact ResolvesOnce_epilog zk cb rc _ _
  · intro hs
    by_cases hrc : rc = ZOK
    · obtain ⟨st, hst⟩ := Option.isSome_iff_exists.mp (hs hrc)
      simp only [stat_completion, CALLBACK_PROLOG, hcb, if_true, hrc, hst]
      exact ResolvesOnce_epilog zk cb ZOK _ _
    · simp only [stat_completion, CALLBACK_PROLOG, hcb, if_true, hrc, if_false]
      exact ResolvesOnce_epilog zk cb rc _ _
  · simp only [data_completion, CALLBACK_PROLOG, hcb, if_true]
    exact ResolvesOnce_epilog zk cb rc _ _
  · simp only [strings_completion, CALLBACK_PROLOG, hcb, if_true]
    exact ResolvesOnce_epilog zk cb rc _ _
  · simp only [strings_stat_completion, CALLBACK_PROLOG, hcb, if_true]
    exact ResolvesOnce_epilog zk cb rc _ _
  · obtain ⟨z, hz, hlog⟩ := void_completion_log zerror zk rc cb type buf hcb
    refine ⟨z, [], hz, ?_, ?_⟩ <;> rw [hlog] <;> by_cases ht : type = ZOO_SETACL_OP <;>
      simp [ht, callbackCalls, callbackDeletes]
  · obtain ⟨z, hz, hlog⟩ := void_completion_log zerror zk rc cb type buf hcb
    refine ⟨z, hz, ?_, ?_, ?_⟩ <;> rw [hlog] <;> by_cases ht : type = ZOO_SETACL_OP <;>
      simp [ht, completionFrees, dataFrees, aclDeallocations]

/-- C8: the code does not do what the claim asks when the payload of the ACL trampoline
is absent.  Called with `acl == NULL`, as for a `getAcl` that failed, `acl_completion`
builds `null` for the ACL argument and then hands the `NULL` pointer to
`deallocate_ACL_vector`, which reads through it: for every result code, every stat and
every callback the trampoline does not run to its end, so no callback is invoked once and
deleted once.  With an ACL vector present and a registered callback the trampoline does
what the claim asks: one invocation, with arguments that start with the result code and
the library's message for it, and one deletion of the callback. -/
theorem acl_completion_faults_on_null_acl (zerror : Int → String) (zk : ZooKeeper) (rc : Int)
    (stat : Option Stat) (cb : Option NanCallback) :
    acl_completion zerror zk rc none stat cb = none
    ∧ (∀ c msg, ¬ ResolvesOnce zk (acl_completion zerror zk rc none stat cb) c rc msg)
    ∧ (∀ c v, cb = some c → c.hidden_zk = true →
        ResolvesOnce zk (acl_completion zerror zk rc (some v) stat cb) c rc (zerror rc)) := by
  have h0 : acl_completion zerror zk rc none stat cb = none := by
    unfold acl_completion
    cases CALLBACK_PROLOG cb <;> rfl
  refine ⟨h0, ?_, ?_⟩
  · rintro c msg ⟨z, payload, hz, -⟩
    rw [h0] at hz
    cases hz
  · rintro c v rfl hcb
    simp only [acl_completion, CALLBACK_PROLOG, hcb, if_true]
    refine ⟨_, [aclsOrNull (some v), statOrNull zk stat], rfl, ?_, ?_⟩
    · simp [CALLBACK_EPILOG, effectsSince, callbackCalls]
    · simp [CALLBACK_EPILOG, effectsSince, callbackDeletes]

theorem acl_completion_faults_on_null_acl_witness :
    sampleCallback.hidden_zk = true
    ∧ acl_completion sampleZerror openSession (-101) none none (some sampleCallback) = none
    ∧ (∀ msg, ¬ ResolvesOnce openSession
        (acl_completion sampleZerror openSession (-101) none none (some sampleCallback))
        sampleCallback (-101) msg)
    ∧ ResolvesOnce openSession
        (acl_completion sampleZerror openSession 0 (some sampleAclVector) (some sampleStat)
          (some sampleCallback))
        sampleCallback 0 (sampleZerror 0) :=
  have h := acl_completion_faults_on_null_acl sampleZerror openSession (-101) none
    (some sampleCallback)
  have h0 := acl_completion_faults_on_null_acl sampleZerror openSession 0 (some sampleStat)
    (some sampleCallback)
  ⟨rfl, h.1, fun msg => h.2.1 sampleCallback msg,
    h0.2.2 sampleCallback sampleAclVector rfl rfl⟩

/-- C9, as the claim states it, fails: in the completion of the `setAcl` operation
`sampleSetAclData` the trampoline logs `deallocate_ACL_vector` and `free` of the ACL
buffer first and the callback invocation third, so the callback does not come before the
deallocation. -/
theorem void_completion_frees_acl_first :
    sampleSetAclData.type = ZOO_SETACL_OP
    ∧ (∃ z, void_completion sampleZerror openSession 0 sampleSetAclData = some z
        ∧ effectsSince openSession z
            = [Effect.deallocate_ACL_vector (some sampleAclVector),
               Effect.free_data (some sampleAclVector),
               Effect.call 3 [.int 0, .str "ok"],
               Effect.delete_callback 3,
               Effect.free_completion_data sampleSetAclData]
        ∧ ¬ CallbackBeforeAclRelease (effectsSince openSession z)) := by
  refine ⟨rfl, _, rfl, by decide, fun h => ?_⟩
  have h20 := h 2 0 (by decide) (by decide)
  omega

/-- C9, amended: in the completion of a `setAcl` operation the owned ACL buffer is
released before the bound callback is invoked: the void trampoline logs
`deallocate_ACL_vector` and `free` of the buffer, then the callback invocation, then the
deletion of the callback and the release of the completion record, so every release of
the ACL buffer precedes the callback invocation. -/
theorem void_completion_acl_release_order (zerror : Int → String) (zk : ZooKeeper) (rc : Int)
    (cb : NanCallback) (buf : Option ACL_vector) (hcb : cb.hidden_zk = true) :
    ∃ z, void_completion zerror zk rc { cb := some cb, type := ZOO_SETACL_OP, data := buf }
        = some z
      ∧ effectsSince zk z
          = [Effect.deallocate_ACL_vector buf, Effect.free_data buf,
             Effect.call cb.fn [.int rc, .str (zerror rc)], Effect.delete_callback cb.fn,
             Effect.free_completion_data { cb := some cb, type := ZOO_SETACL_OP, data := buf }]
      ∧ AclReleaseBeforeCallback (effectsSince zk z) := by
  obtain ⟨z, hz, hlog⟩ := void_completion_log zerror zk rc cb ZOO_SETACL_OP buf hcb
  simp only [if_true, List.cons_append, List.nil_append] at hlog
  refine ⟨z, hz, hlog, ?_⟩
  rw [hlog]
  intro i j hi hj
  have hi2 : i < 2 := by
    by_contra hge
    have h5 : i = 2 ∨ i = 3 ∨ i = 4 ∨ 5 ≤ i := by omega
    rcases h5 with h | h | h | h
    · subst h; simp [isAclRelease] at hi
    · subst h; simp [isAclRelease] at hi
    · subst h; simp [isAclRelease] at hi
    · rw [List.getElem?_eq_none (by simpa using h)] at hi
      simp at hi
  have hj2 : 2 ≤ j := by
    by_contra hlt
    have h2 : j = 0 ∨ j = 1 := by omega
    rcases h2 with h | h
    · subst h; simp [isCallbackCall] at hj
    · subst h; simp [isCallbackCall] at hj
  omega

theorem void_completion_acl_release_order_witness :
    sampleCallback.hidden_zk = true
    ∧ ∃ z, void_completion sampleZerror openSession 0
          { cb := some sampleCallback, type := ZOO_SETACL_OP, data := some sampleAclVector }
        = some z
      ∧ effectsSince openSession z
          = [Effect.deallocate_ACL_vector (some sampleAclVector),
             Effect.free_data (some sampleAclVector),
             Effect.call sampleCallback.fn [.int 0, .str (sampleZerror 0)],
             Effect.delete_callback sampleCallback.fn,
             Effect.free_completion_data
               { cb := some sampleCallback, type := ZOO_SETACL_OP,
                 data := some sampleAclVector }]
      ∧ AclReleaseBeforeCallback (effectsSince openSession z) :=
  ⟨rfl, void_completion_acl_release_order sampleZerror openSession 0 sampleCallback
    (some sampleAclVector) rfl⟩

/-! ### The watcher trampoline -/

theorem map_getD_range {α : Type} (l : List α) (d : α) :
    (List.range l.length).map (fun i => l.getD i d) = l := by
  apply List.ext_getElem
  · simp
  · intro i h1 h2
    simp [List.getD_eq_getElem?_getD, List.getElem?_eq_getElem h2]

theorem stringsArray_of_wellFormed (v : String_vector) (h : CountMatches v.count v.data) :
    stringsArray v = v.data := by
  obtain ⟨hc, hlt⟩ := h
  have hn : (v.count % 2 ^ 32).toNat = v.data.length := by
    rw [hc]
    norm_num at hlt ⊢
    omega
  unfold stringsArray
  rw [hn]
  exact map_getD_range v.data ""

theorem createAclObject_of_wellFormed (v : ACL_vector) (h : CountMatches v.count v.data) :
    createAclObject v = v.data.map aclObjectOf := by
  obtain ⟨hc, -⟩ := h
  have hn : v.count.toNat = v.data.length := by rw [hc]; simp
  unfold createAclObject
  rw [hn]
  apply List.ext_getElem
  · simp
  · intro i h1 h2
    have h3 : i < v.data.length := by simpa using h2
    simp [List.getD_eq_getElem?_getD, List.getElem?_eq_getElem h3, aclObjectOf]

theorem strings_completion_eq (zerror : Int → String) (zk : ZooKeeper) (rc : Int)
    (cb : NanCallback) (hcb : cb.hidden_zk = true) (sv : Option String_vector) :
    strings_completion zerror zk rc sv (some cb)
      = some (CALLBACK_EPILOG zk cb [.int rc, .str (zerror rc), stringsOrNull sv]) := by
  simp only [strings_completion, CALLBACK_PROLOG, hcb, if_true]

theorem strings_stat_completion_eq (zerror : Int → String) (zk : ZooKeeper) (rc : Int)
    (cb : NanCallback) (hcb : cb.hidden_zk = true) (sv : Option String_vector)
    (stat : Option Stat) :
    strings_stat_completion zerror zk rc sv stat (some cb)
      = some (CALLBACK_EPILOG zk cb
          [.int rc, .str (zerror rc), stringsOrNull sv, statOrNull zk stat]) := by
  simp only [strings_stat_completion, CALLBACK_PROLOG, hcb, if_true]

/-- C11: for every children vector of `n` names the strings and the strings+stat
trampolines hand the callback, as third argument, the array of exactly those `n` names
in the same order; a `NULL` vector yields `null`.  For every ACL vector of `n` entries
`createAclObject` returns exactly `n` objects, the `i`-th carrying the perms, scheme and
identity of the `i`-th entry. -/
theorem list_marshaling_preserves_order (zerror : Int → String) (zk : ZooKeeper) (rc : Int)
    (cb : NanCallback) (hcb : cb.hidden_zk = true) (v : String_vector)
    (hv : CountMatches v.count v.data) (stat : Option Stat) (a : ACL_vector)
    (ha : CountMatches a.count a.data) :
    stringsArray v = v.data
    ∧ (∃ z, strings_completion zerror zk rc (some v) (some cb) = some z
        ∧ callbackCalls (effectsSince zk z)
            = [(cb.fn, [.int rc, .str (zerror rc), .strings v.data])])
    ∧ (∃ z, strings_stat_completion zerror zk rc (some v) stat (some cb) = some z
        ∧ callbackCalls (effectsSince zk z)
            = [(cb.fn, [.int rc, .str (zerror rc), .strings v.data, statOrNull zk stat])])
    ∧ (∃ z, strings_completion zerror zk rc none (some cb) = some z
        ∧ callbackCalls (effectsSince zk z) = [(cb.fn, [.int rc, .str (zerror rc), .null])])
    ∧ (∃ z, strings_stat_completion zerror zk rc none stat (some cb) = some z
        ∧ callbackCalls (effectsSince zk z)
            = [(cb.fn, [.int rc, .str (zerror rc), .null, statOrNull zk stat])])
    ∧ (createAclObject a).length = a.data.length
    ∧ (∀ (i : Nat) (hi : i < a.data.length),
        (createAclObject a)[i]?
          = some { perms := a.data[i].perms, scheme := a.data[i].id.scheme,
                   auth := a.data[i].id.id })
    ∧ createAclObject a = a.data.map aclObjectOf := by
  have hs := stringsArray_of_wellFormed v hv
  have hacl := createAclObject_of_wellFormed a ha
  refine ⟨hs, ⟨_, strings_completion_eq zerror zk rc cb hcb (some v), ?_⟩,
    ⟨_, strings_stat_completion_eq zerror zk rc cb hcb (some v) stat, ?_⟩,
    ⟨_, strings_completion_eq zerror zk rc cb hcb none, ?_⟩,
    ⟨_, strings_stat_completion_eq zerror zk rc cb hcb none stat, ?_⟩,
    ?_, ?_, hacl⟩
  · simp [CALLBACK_EPILOG, effectsSince, callbackCalls, stringsOrNull, hs]
  · simp [CALLBACK_EPILOG, effectsSince, callbackCalls, stringsOrNull, hs]
  · simp [CALLBACK_EPILOG, effectsSince, callbackCalls, stringsOrNull]
  · simp [CALLBACK_EPILOG, effectsSince, callbackCalls, stringsOrNull]
  · rw [hacl]; simp
  · intro i hi
    rw [hacl]
    simp [List.getElem?_eq_getElem hi, aclObjectOf]

theorem list_marshaling_preserves_order_witness :
    sampleCallback.hidden_zk = true
    ∧ CountMatches sampleChildren.count sampleChildren.data
    ∧ CountMatches sampleAclVector2.count sampleAclVector2.data
    ∧ stringsArray sampleChildren = sampleChildren.data
    ∧ createAclObject sampleAclVector2 = sampleAclVector2.data.map aclObjectOf :=
  have hv : CountMatches sampleChildren.count sampleChildren.data := ⟨by decide, by decide⟩
  have ha : CountMatches sampleAclVector2.count sampleAclVector2.data :=
    ⟨by decide, by decide⟩
  have h := list_marshaling_preserves_order sampleZerror openSession 0 sampleCallback rfl
    sampleChildren hv none sampleAclVector2 ha
  ⟨rfl, hv, ha, h.1, h.2.2.2.2.2.2.2⟩

/-! ### The ACL vector builder -/

theorem strdup_of_nulFree (s : String) (h : NulFree s) : strdup s = s := by
  unfold strdup
  have : s.data.takeWhile (fun c => decide (c ≠ Char.ofNat 0)) = s.data := by
    rw [List.takeWhile_eq_self_iff]
    intro c hc
    simpa using h c hc
  rw [this]

theorem createAclVector_of_inRange (arr : List AclObject) (hlen : arr.length < 2 ^ 31)
    (h : ∀ e ∈ arr, AclEntryInRange e) :
    createAclVector arr = { count := arr.length, data := arr.map aclOf } := by
  have hc : toInt32 (arr.length % 2 ^ 32) = (arr.length : Int) := by
    have h1 : arr.length % 2 ^ 32 = arr.length := Nat.mod_eq_of_lt (by omega)
    rw [h1]
    unfold toInt32
    rw [if_pos hlen]
  unfold createAclVector
  simp only [hc, Int.toNat_ofNat]
  congr 1
  apply List.ext_getElem
  · simp
  · intro i h1 h2
    have h3 : i < arr.length := by simpa using h2
    obtain ⟨p0, p1, ps, pa⟩ := h _ (List.getElem_mem h3)
    have hp : toInt32 ((arr[i].perms % 2 ^ 32).toNat) = arr[i].perms := by
      have e1 : arr[i].perms % 2 ^ 32 = arr[i].perms :=
        Int.emod_eq_of_lt p0 (by omega)
      rw [e1]
      unfold toInt32
      have e2 : ((arr[i].perms.toNat : Nat) : Int) = arr[i].perms := Int.toNat_of_nonneg p0
      have e3 : arr[i].perms.toNat < 2 ^ 31 := by omega
      rw [if_pos e3, e2]
    norm_num at hp
    simp [List.getD_eq_getElem?_getD, List.getElem?_eq_getElem h3, aclOf, hp,
      strdup_of_nulFree _ ps, strdup_of_nulFree _ pa]

/-- C12: for every ordered sequence of entries `{perms, scheme, auth}` with
`0 <= perms < 2^31` and `NUL`-free strings (the sequence short enough for its length to
fit the `int32_t` count), `createAclVector` produces a vector of equal length whose
`i`-th element has the perms, scheme and auth of the `i`-th entry, and
`createAclObject (createAclVector entries) = entries`. -/
theorem acl_vector_builder_inverse (arr : List AclObject) (hlen : arr.length < 2 ^ 31)
    (h : ∀ e ∈ arr, AclEntryInRange e) :
    (createAclVector arr).count = arr.length
    ∧ (createAclVector arr).data.length = arr.length
    ∧ (∀ (i : Nat) (hi : i < arr.length),
        (createAclVector arr).data[i]?
          = some { perms := arr[i].perms,
                   id := { scheme := arr[i].scheme, id := arr[i].auth } })
    ∧ createAclObject (createAclVector arr) = arr := by
  have hv := createAclVector_of_inRange arr hlen h
  rw [hv]
  refine ⟨rfl, by simp, ?_, ?_⟩
  · intro i hi
    simp [List.getElem?_eq_getElem hi, aclOf]
  · rw [createAclObject_of_wellFormed _ ⟨by simp, by simpa using hlen⟩]
    simp only [List.map_map]
    have : (aclObjectOf ∘ aclOf) = id := by
      funext e
      rfl
    rw [this, List.map_id]

theorem acl_vector_builder_inverse_witness :
    sampleAclEntries.length < 2 ^ 31
    ∧ (∀ e ∈ sampleAclEntries, AclEntryInRange e)
    ∧ (createAclVector sampleAclEntries).count = sampleAclEntries.length
    ∧ createAclObject (createAclVector sampleAclEntries) = sampleAclEntries :=
  have hl : sampleAclEntries.length < 2 ^ 31 := by decide
  have hr : ∀ e ∈ sampleAclEntries, AclEntryInRange e := by
    intro e he
    simp only [sampleAclEntries, List.mem_cons, List.mem_singleton, List.not_mem_nil,
      or_false] at he
    rcases he with rfl | rfl <;>
      exact ⟨by decide, by decide, by unfold NulFree; decide, by unfold NulFree; decide⟩
  have h := acl_vector_builder_inverse sampleAclEntries hl hr
  ⟨hl, hr, h.1, h.2.2.2⟩

/-! ### Session and node events in `main_watcher` -/

theorem DoEmitPath_eq (zk : ZooKeeper) (name : String) (path : Option String) :
    DoEmitPath zk name path = zk.record (.emit name (pathOrUndefined path)) := by
  cases path <;> rfl

/-- C13, as the claim states it, fails: a session event whose state is associating,
delivered to the open session `openSession`, emits nothing at all; `main_watcher`
returns the session as it was. -/
theorem main_watcher_associating_emits_nothing :
    associatingEvent.type = ZOO_SESSION_EVENT
    ∧ associatingEvent.state = ZOO_ASSOCIATING_STATE
    ∧ openSession.is_closed = false
    ∧ main_watcher openSession associatingEvent = openSession
    ∧ emittedNames (effectsSince openSession (main_watcher openSession associatingEvent)) = []
    ∧ emittedNames (effectsSince openSession (main_watcher openSession associatingEvent))
        ≠ [on_connecting] := by
  decide

/-- C13, amended: for every session event delivered to the main watcher on an open
session whose state is connecting, exactly one `connecting` notification is emitted,
carrying the path, and the session is not closed and keeps its handle; a session event
whose state is associating emits nothing and leaves the session as it was. -/
theorem main_watcher_connecting (zk : ZooKeeper) (ev : WatcherEvent)
    (hc : zk.is_closed = false) (ht : ev.type = ZOO_SESSION_EVENT) :
    (ev.state = ZOO_CONNECTING_STATE →
        effectsSince zk (main_watcher zk ev)
          = [Effect.emit on_connecting (pathOrUndefined ev.path)]
        ∧ emittedNames (effectsSince zk (main_watcher zk ev)) = [on_connecting]
        ∧ (main_watcher zk ev).is_closed = false
        ∧ (main_watcher zk ev).zhandle = zk.zhandle)
    ∧ (ev.state = ZOO_ASSOCIATING_STATE →
        main_watcher zk ev = zk
        ∧ effectsSince zk (main_watcher zk ev) = []) := by
  constructor
  · intro hs
    have hm : main_watcher zk ev = zk.record (.emit on_connecting (pathOrUndefined ev.path)) := by
      simp [main_watcher, ht, hs, ZOO_CONNECTED_STATE, ZOO_CONNECTING_STATE, DoEmitPath_eq]
    rw [hm]
    exact ⟨by simp [effectsSince], by simp [effectsSince, emittedNames], hc, rfl⟩
  · intro hs
    have hm : main_watcher zk ev = zk := by
      simp [main_watcher, ht, hs, ZOO_CONNECTED_STATE, ZOO_CONNECTING_STATE,
        ZOO_ASSOCIATING_STATE, ZOO_AUTH_FAILED_STATE, ZOO_EXPIRED_SESSION_STATE]
    rw [hm]
    exact ⟨rfl, by simp [effectsSince]⟩

theorem main_watcher_connecting_witness :
    openSession.is_closed = false ∧ connectingEvent.type = ZOO_SESSION_EVENT
    ∧ connectingEvent.state = ZOO_CONNECTING_STATE
    ∧ emittedNames (effectsSince openSession (main_watcher openSession connectingEvent))
        = [on_connecting]
    ∧ main_watcher openSession associatingEvent = openSession :=
  have h := main_watcher_connecting openSession connectingEvent (by decide) (by decide)
  have ha := main_watcher_connecting openSession associatingEvent (by decide) (by decide)
  ⟨by decide, by decide, by decide, (h.1 (by decide)).2.1, (ha.2 (by decide)).1⟩

/-- C14: for every node event delivered to the main watcher (created, deleted, changed,
child, not-watching) exactly one notification is emitted, with the name the
specification gives for the type and the event's path as payload (`undefined` when the
path is absent), and nothing else is logged; an event whose type is neither a node event
nor the session event emits nothing and returns the session as it was.  In both cases
the closed flag, the handle and the stored identity are unchanged. -/
theorem main_watcher_node_event (zk : ZooKeeper) (ev : WatcherEvent) :
    (∀ name, nodeEventName ev.type = some name →
        effectsSince zk (main_watcher zk ev) = [Effect.emit name (pathOrUndefined ev.path)])
    ∧ (nodeEventName ev.type = none → ev.type ≠ ZOO_SESSION_EVENT →
        main_watcher zk ev = zk ∧ effectsSince zk (main_watcher zk ev) = [])
    ∧ (ev.type ≠ ZOO_SESSION_EVENT →
        (main_watcher zk ev).is_closed = zk.is_closed
        ∧ (main_watcher zk ev).zhandle = zk.zhandle
        ∧ (main_watcher zk ev).myid = zk.myid) := by
  have hcases : ev.type ≠ ZOO_SESSION_EVENT →
      (∃ name, nodeEventName ev.type = some name
          ∧ main_watcher zk ev = zk.record (.emit name (pathOrUndefined ev.path)))
      ∨ (nodeEventName ev.type = none ∧ main_watcher zk ev = zk) := by
    intro hne
    by_cases h1 : ev.type = ZOO_CREATED_EVENT
    · exact Or.inl ⟨"created", by simp [nodeEventName, h1],
        by simp [main_watcher, h1, ZOO_CREATED_EVENT, ZOO_SESSION_EVENT, DoEmitPath_eq,
          on_event_created]⟩
    by_cases h2 : ev.type = ZOO_DELETED_EVENT
    · exact Or.inl ⟨"deleted", by simp [nodeEventName, h2, ZOO_CREATED_EVENT, ZOO_DELETED_EVENT],
        by simp [main_watcher, h2, ZOO_CREATED_EVENT, ZOO_DELETED_EVENT, ZOO_SESSION_EVENT,
          DoEmitPath_eq, on_event_deleted]⟩
    by_cases h3 : ev.type = ZOO_CHANGED_EVENT
    · exact Or.inl ⟨"changed", by simp [nodeEventName, h3, ZOO_CREATED_EVENT, ZOO_DELETED_EVENT,
          ZOO_CHANGED_EVENT],
        by simp [main_watcher, h3, ZOO_CREATED_EVENT, ZOO_DELETED_EVENT, ZOO_CHANGED_EVENT,
          ZOO_SESSION_EVENT, DoEmitPath_eq, on_event_changed]⟩
    by_cases h4 : ev.type = ZOO_CHILD_EVENT
    · exact Or.inl ⟨"child", by simp [nodeEventName, h4, ZOO_CREATED_EVENT, ZOO_DELETED_EVENT,
          ZOO_CHANGED_EVENT, ZOO_CHILD_EVENT],
        by simp [main_watcher, h4, ZOO_CREATED_EVENT, ZOO_DELETED_EVENT, ZOO_CHANGED_EVENT,
          ZOO_CHILD_EVENT, ZOO_SESSION_EVENT, DoEmitPath_eq, on_event_child]⟩
    by_cases h5 : ev.type = ZOO_NOTWATCHING_EVENT
    · exact Or.inl ⟨"notwatching", by simp [nodeEventName, h5, ZOO_CREATED_EVENT, ZOO_DELETED_EVENT,
          ZOO_CHANGED_EVENT, ZOO_CHILD_EVENT, ZOO_NOTWATCHING_EVENT],
        by simp [main_watcher, h5, ZOO_CREATED_EVENT, ZOO_DELETED_EVENT, ZOO_CHANGED_EVENT,
          ZOO_CHILD_EVENT, ZOO_NOTWATCHING_EVENT, ZOO_SESSION_EVENT, DoEmitPath_eq,
          on_event_notwatching]⟩
    · exact Or.inr ⟨by simp [nodeEventName, h1, h2, h3, h4, h5],
        by simp [main_watcher, hne, h1, h2, h3, h4, h5]⟩
  have hsess : ∀ name, nodeEventName ZOO_SESSION_EVENT ≠ some name := by
    intro name
    simp [nodeEventName, ZOO_SESSION_EVENT, ZOO_CREATED_EVENT, ZOO_DELETED_EVENT,
      ZOO_CHANGED_EVENT, ZOO_CHILD_EVENT, ZOO_NOTWATCHING_EVENT]
  refine ⟨?_, ?_, ?_⟩
  · intro name hn
    have hne : ev.type ≠ ZOO_SESSION_EVENT := fun he => hsess name (he ▸ hn)
    rcases hcases hne with ⟨name2, hn2, hm⟩ | ⟨hn2, -⟩
    · rw [hn] at hn2
      cases hn2
      rw [hm]
      simp [effectsSince]
    · rw [hn] at hn2
      cases hn2
  · intro hn hne
    rcases hcases hne with ⟨name2, hn2, -⟩ | ⟨-, hm⟩
    · rw [hn] at hn2
      cases hn2
    · rw [hm]
      exact ⟨rfl, by simp [effectsSince]⟩
  · intro hne
    rcases hcases hne with ⟨name2, -, hm⟩ | ⟨-, hm⟩ <;> rw [hm] <;> exact ⟨rfl, rfl, rfl⟩

theorem main_watcher_node_event_witness :
    nodeEventName createdEvent.type = some "created"
    ∧ effectsSince openSession (main_watcher openSession createdEvent)
        = [Effect.emit "created" (pathOrUndefined createdEvent.path)]
    ∧ (main_watcher openSession createdEvent).zhandle = openSession.zhandle :=
  have h := main_watcher_node_event openSession createdEvent
  ⟨by decide, h.1 "created" (by decide), (h.2.2 (by decide)).2.1⟩

/-! ### `yield` mirrors the interest -/

theorem delayOfTimeval_nonneg (tv : timeval) (hs : 0 ≤ tv.tv_sec) (hu : 0 ≤ tv.tv_usec) :
    delayOfTimeval tv = millisOf tv := by
  unfold delayOfTimeval millisOf
  rw [Int.tdiv_eq_ediv (by positivity) (by norm_num)]
  omega

theorem int_or_poll_flags (a b : Bool) :
    int_or (if a then UV_READABLE else 0) (if b then UV_WRITABLE else 0)
      = (if a then UV_READABLE else 0) + (if b then UV_WRITABLE else 0) := by
  cases a <;> cases b <;> decide

theorem pollFlagsFor_flags (interest : Int) :
    (HasFlag (pollFlagsFor interest) UV_READABLE ↔ HasFlag interest ZOOKEEPER_READ)
    ∧ (HasFlag (pollFlagsFor interest) UV_WRITABLE ↔ HasFlag interest ZOOKEEPER_WRITE)
    ∧ pollFlagsFor interest ∈ [0, UV_READABLE, UV_WRITABLE, UV_READABLE + UV_WRITABLE] := by
  unfold pollFlagsFor
  by_cases hr : HasFlag interest ZOOKEEPER_READ <;>
    by_cases hw : HasFlag interest ZOOKEEPER_WRITE <;>
    simp only [hr, hw, if_true, if_false, iff_true, iff_false] <;> decide

theorem pollFlagsFor_ne_zero (interest : Int) :
    pollFlagsFor interest ≠ 0
      ↔ (HasFlag interest ZOOKEEPER_READ ∨ HasFlag interest ZOOKEEPER_WRITE) := by
  unfold pollFlagsFor
  by_cases hr : HasFlag interest ZOOKEEPER_READ <;>
    by_cases hw : HasFlag interest ZOOKEEPER_WRITE <;>
    simp only [hr, hw, if_true, if_false, or_self, or_true, true_or, iff_true, iff_false] <;>
    decide

/-- What `yield` leaves behind on an open session, by the answer of the library. -/
theorem yield_open (zk : ZooKeeper) (now : Int) (q : InterestOracle)
    (hc : zk.is_closed = false) :
    ((q zk.zhandle).rc = 0 → (q zk.zhandle).fd ≠ -1 →
        (yield zk now q).zk_io
            = { active := decide (pollFlagsFor (q zk.zhandle).interest ≠ 0),
                fd := (q zk.zhandle).fd,
                events := pollFlagsFor (q zk.zhandle).interest }
        ∧ (yield zk now q).zk_timer
            = { active := true, timeout := delayOfTimeval (q zk.zhandle).tv,
                interval := delayOfTimeval (q zk.zhandle).tv })
    ∧ (((q zk.zhandle).rc ≠ 0 ∨ (q zk.zhandle).fd = -1) →
        (yield zk now q).zk_io.active = false
        ∧ (yield zk now q).zk_timer = zk.zk_timer)
    ∧ (yield zk now q).last_activity = now
    ∧ (yield zk now q).fd = (q zk.zhandle).fd
    ∧ (yield zk now q).interest = (q zk.zhandle).interest
    ∧ (yield zk now q).tv = (q zk.zhandle).tv := by
  have hflags : ∀ x : Int,
      int_or (if int_and x ZOOKEEPER_READ ≠ 0 then UV_READABLE else 0)
          (if int_and x ZOOKEEPER_WRITE ≠ 0 then UV_WRITABLE else 0)
        = pollFlagsFor x := by
    intro x
    have := int_or_poll_flags (decide (int_and x ZOOKEEPER_READ ≠ 0))
      (decide (int_and x ZOOKEEPER_WRITE ≠ 0))
    simpa [pollFlagsFor, HasFlag] using this
  have hflags2 : ∀ x : Int,
      int_or (if int_and x ZOOKEEPER_READ = 0 then 0 else UV_READABLE)
          (if int_and x ZOOKEEPER_WRITE = 0 then 0 else UV_WRITABLE)
        = pollFlagsFor x := by
    intro x
    have := hflags x
    simpa only [ne_eq, ite_not] using this
  cases hp : zk.zk_io.active <;> by_cases hrc : (q zk.zhandle).rc = 0 <;>
    by_cases hfd : (q zk.zhandle).fd = -1 <;>
    simp [yield, hc, hp, hrc, hfd, hflags2, uv_poll_stop, uv_poll_init, uv_poll_start,
      uv_timer_start, ZooKeeper.record]

/-- C15: after every `yield` on an open session the reactor registration mirrors the
interest just queried.  If the query succeeds with a file descriptor other than -1,
interest flags `I` and a timeout of `sec >= 0` seconds and `usec >= 0` microseconds, the
poll watcher is on exactly that descriptor, with readable set iff `I` has read interest,
writable set iff `I` has write interest and no other flag, and the timer is armed with
timeout and repeat interval both `1000 * sec + floor (usec / 1000)` milliseconds.  The
poll watcher is active if `I` has read or write interest; for an `I` with neither, the
reactor is handed the empty set of events, for which it leaves the watcher stopped.  If
the query reports an error or the descriptor is -1, the poll watcher is not active. -/
theorem yield_mirrors_interest (zk : ZooKeeper) (now : Int) (q : InterestOracle)
    (hc : zk.is_closed = false) :
    ((q zk.zhandle).rc = 0 → (q zk.zhandle).fd ≠ -1 →
      0 ≤ (q zk.zhandle).tv.tv_sec → 0 ≤ (q zk.zhandle).tv.tv_usec →
        ((HasFlag (q zk.zhandle).interest ZOOKEEPER_READ
            ∨ HasFlag (q zk.zhandle).interest ZOOKEEPER_WRITE) →
          (yield zk now q).zk_io.active = true)
        ∧ (¬ HasFlag (q zk.zhandle).interest ZOOKEEPER_READ →
            ¬ HasFlag (q zk.zhandle).interest ZOOKEEPER_WRITE →
          (yield zk now q).zk_io.active = false ∧ (yield zk now q).zk_io.events = 0)
        ∧ (yield zk now q).zk_io.fd = (q zk.zhandle).fd
        ∧ (HasFlag (yield zk now q).zk_io.events UV_READABLE
            ↔ HasFlag (q zk.zhandle).interest ZOOKEEPER_READ)
        ∧ (HasFlag (yield zk now q).zk_io.events UV_WRITABLE
            ↔ HasFlag (q zk.zhandle).interest ZOOKEEPER_WRITE)
        ∧ (yield zk now q).zk_io.events
            ∈ [0, UV_READABLE, UV_WRITABLE, UV_READABLE + UV_WRITABLE]
        ∧ (yield zk now q).zk_timer
            = { active := true, timeout := millisOf (q zk.zhandle).tv,
                interval := millisOf (q zk.zhandle).tv })
    ∧ (((q zk.zhandle).rc ≠ 0 ∨ (q zk.zhandle).fd = -1) →
        (yield zk now q).zk_io.active = false) := by
  obtain ⟨h1, h2, -⟩ := yield_open zk now q hc
  constructor
  · intro hrc hfd hs hu
    obtain ⟨e1, e2⟩ := h1 hrc hfd
    obtain ⟨f1, f2, f3⟩ := pollFlagsFor_flags (q zk.zhandle).interest
    have f4 := pollFlagsFor_ne_zero (q zk.zhandle).interest
    rw [e1, e2, delayOfTimeval_nonneg _ hs hu]
    refine ⟨fun h => ?_, fun hr hw => ?_, rfl, f1, f2, f3, rfl⟩
    · exact decide_eq_true (f4.mpr h)
    · have h0 : pollFlagsFor (q zk.zhandle).interest = 0 := by
        by_contra hne
        rcases f4.mp hne with h | h
        · exact hr h
        · exact hw h
      exact ⟨decide_eq_false (fun hne => hne h0), h0⟩
  · intro h
    exact (h2 h).1

theorem yield_mirrors_interest_witness :
    openSession.is_closed = false
    ∧ HasFlag (sampleInterest openSession.zhandle).interest ZOOKEEPER_READ
    ∧ (yield openSession 10 sampleInterest).zk_io.active = true
    ∧ (yield openSession 10 sampleInterest).zk_io.fd = 5
    ∧ (yield openSession 10 sampleInterest).zk_timer
        = { active := true, timeout := 6666, interval := 6666 } :=
  have hw : HasFlag (sampleInterest openSession.zhandle).interest ZOOKEEPER_READ := by decide
  have h := (yield_mirrors_interest openSession 10 sampleInterest (by decide)).1
    (by decide) (by decide) (by decide) (by decide)
  ⟨by decide, hw, h.1 (Or.inl hw), h.2.2.1, h.2.2.2.2.2.2⟩

/-! ### Node metadata -/

theorem yield_myid (zk : ZooKeeper) (now : Int) (q : InterestOracle) :
    (yield zk now q).myid = zk.myid := by
  unfold yield
  split
  · rfl
  · cases hp : zk.zk_io.active <;> by_cases hrc : (q zk.zhandle).rc = 0 <;>
      by_cases hfd : (q zk.zhandle).fd = -1 <;>
      simp [hp, hrc, hfd, uv_poll_stop, uv_poll_init, uv_poll_start, uv_timer_start,
        ZooKeeper.record]

theorem realClose_myid (zk : ZooKeeper) (code : Int) : (realClose zk code).myid = zk.myid := by
  unfold realClose
  split
  · rfl
  · cases hz : zk.zhandle <;> cases ht : zk.zk_timer.active <;> cases hp : zk.zk_io.active <;>
      simp [hz, ht, hp, uv_timer_stop, uv_poll_stop, Unref, DoEmitClose, DoEmit,
        ZooKeeper.record]

theorem realInit_myid (zk : ZooKeeper) (hostPort : String) (t : Int) (c : clientid_t)
    (reply : Option Nat) (now : Int) (q : InterestOracle) :
    (realInit zk hostPort t c reply now q).2.myid = c := by
  unfold realInit
  cases reply with
  | none => rfl
  | some zh =>
    simp only
    rw [yield_myid]
    rfl

theorem Init_myid (zk : ZooKeeper) (o : InitObject) (reply : Option Nat) (now : Int)
    (q : InterestOracle) (h : ¬ ConfigError o) :
    (Init zk (.object o) reply now q).2.myid = suppliedClient o := by
  obtain ⟨dl, hod, conn, tmo, cid, cpw⟩ := o
  cases cid with
  | none =>
    cases cpw with
    | some pw => exact absurd (Or.inl (by simp)) h
    | none =>
      have hi := realInit_myid
        ((zk.record (.zoo_set_debug_level dl)).record (.zoo_deterministic_conn_order hod))
        conn (if tmo = 0 then 20000 else tmo)
        { client_id := 0, passwd := List.replicate 16 0 } reply now q
      simp only [Init, suppliedClient]
      generalize realInit _ _ _ _ reply now q = res at hi ⊢
      obtain ⟨b, z⟩ := res
      cases b <;> exact hi
  | some id =>
    cases cpw with
    | none => exact absurd (Or.inl (by simp)) h
    | some pw =>
      have hlen : pw.length = 32 := by
        by_contra hne
        exact h (Or.inr ⟨id, pw, rfl, rfl, hne⟩)
      have hi := realInit_myid
        ((zk.record (.zoo_set_debug_level dl)).record (.zoo_deterministic_conn_order hod))
        conn (if tmo = 0 then 20000 else tmo)
        { client_id := StringToId id 0, passwd := HexStringToPassword pw } reply now q
      simp only [Init, suppliedClient, hlen, ZOOKEEPER_PASSWORD_BYTE_COUNT]
      generalize realInit _ _ _ _ reply now q = res at hi ⊢
      obtain ⟨b, z⟩ := res
      cases b <;> exact hi

/-- C16: for every node metadata record marshaled by `createStatObject`, the flag
`createdInThisSession` is true if and only if the ephemeral owner of the record equals
the identifier the session stores; `ephemeralOwner` is the hexadecimal string of the
owner (so its base-16 value is the owner modulo `2^64`), and `dataLength`,
`numChildren`, `version`, `cversion` and `aversion` are copied unchanged.  The stored
identifier is the identity given to `init`, is replaced by what the handle reports at
each connected event, and is left alone by every other watcher event, by `yield`, by
`zk_timer_cb` and by `close`. -/
theorem stat_created_in_this_session (zk : ZooKeeper) (stat : Stat) :
    ((createStatObject zk stat).createdInThisSession = true
        ↔ stat.ephemeralOwner = zk.myid.client_id)
    ∧ (createStatObject zk stat).ephemeralOwner = idAsString stat.ephemeralOwner
    ∧ hexStringValue (createStatObject zk stat).ephemeralOwner
        = (stat.ephemeralOwner % 2 ^ 64).toNat
    ∧ (createStatObject zk stat).dataLength = stat.dataLength
    ∧ (createStatObject zk stat).numChildren = stat.numChildren
    ∧ (createStatObject zk stat).version = stat.version
    ∧ (createStatObject zk stat).cversion = stat.cversion
    ∧ (createStatObject zk stat).aversion = stat.aversion
    ∧ (∀ (o : InitObject) (reply : Option Nat) (now : Int) (q : InterestOracle),
        ¬ ConfigError o → (Init zk (.object o) reply now q).2.myid = suppliedClient o)
    ∧ (∀ ev : WatcherEvent, ev.type = ZOO_SESSION_EVENT → ev.state = ZOO_CONNECTED_STATE →
        (main_watcher zk ev).myid = ev.client_id)
    ∧ (∀ ev : WatcherEvent, ¬ (ev.type = ZOO_SESSION_EVENT ∧ ev.state = ZOO_CONNECTED_STATE) →
        (main_watcher zk ev).myid = zk.myid)
    ∧ (∀ (now : Int) (q : InterestOracle),
        (yield zk now q).myid = zk.myid ∧ (zk_timer_cb zk now q).myid = zk.myid)
    ∧ (∀ code : Int, (realClose zk code).myid = zk.myid) := by
  refine ⟨?_, rfl, ?_, rfl, rfl, rfl, rfl, rfl, ?_, ?_, ?_, ?_, ?_⟩
  · simp only [createStatObject, decide_eq_true_eq]
    exact eq_comm
  · have hu : (stat.ephemeralOwner % 2 ^ 64).toNat < 16 ^ 16 := by
      have h1 : stat.ephemeralOwner % 2 ^ 64 < 2 ^ 64 := Int.emod_lt_of_pos _ (by norm_num)
      have h2 : 0 ≤ stat.ephemeralOwner % 2 ^ 64 := Int.emod_nonneg _ (by norm_num)
      norm_num at h1 h2 ⊢
      omega
    exact foldl_sprintf_llx_digits 16 _ hu
  · intro o reply now q h
    exact Init_myid zk o reply now q h
  · intro ev ht hs
    simp only [main_watcher, ht, hs, if_true]
    cases ev.path <;> rfl
  · intro ev hne
    unfold main_watcher
    repeat' split
    all_goals first
      | exact realClose_myid zk _
      | rfl
      | (cases ev.path <;> rfl)
      | (exfalso; apply hne; constructor <;> assumption)
  · intro now q
    refine ⟨yield_myid zk now q, ?_⟩
    unfold zk_timer_cb
    simp only
    split
    · exact yield_myid zk now q
    · rfl
  · intro code
    exact realClose_myid zk code

theorem stat_created_in_this_session_witness :
    ((createStatObject (main_watcher openSession connectedEvent) sampleStat).createdInThisSession
        = true
      ↔ sampleStat.ephemeralOwner
          = (main_watcher openSession connectedEvent).myid.client_id)
    ∧ (createStatObject (main_watcher openSession connectedEvent) sampleStat).createdInThisSession
        = true
    ∧ (createStatObject openSession sampleStat).createdInThisSession = false :=
  ⟨(stat_created_in_this_session (main_watcher openSession connectedEvent) sampleStat).1,
    by decide, by decide⟩

/-! ### The socket callback -/

theorem GrowsWithoutProcess_refl (a : ZooKeeper) : GrowsWithoutProcess a a :=
  ⟨[], by simp, rfl⟩

theorem GrowsWithoutProcess_trans (a b c : ZooKeeper) (h1 : GrowsWithoutProcess a b)
    (h2 : GrowsWithoutProcess b c) : GrowsWithoutProcess a c := by
  obtain ⟨X, hX, pX⟩ := h1
  obtain ⟨Y, hY, pY⟩ := h2
  refine ⟨X ++ Y, by rw [hY, hX, List.append_assoc], ?_⟩
  unfold processCalls at pX pY ⊢
  rw [List.filterMap_append, pX, pY]
  rfl

theorem GrowsWithoutProcess_of_drop (a b : ZooKeeper)
    (h : b.log = a.log ++ effectsSince a b ∧ processCalls (effectsSince a b) = []) :
    GrowsWithoutProcess a b :=
  ⟨effectsSince a b, h.1, h.2⟩

theorem realClose_grows (zk : ZooKeeper) (code : Int) :
    GrowsWithoutProcess zk (realClose zk code) := by
  apply GrowsWithoutProcess_of_drop
  unfold realClose
  split
  · simp [effectsSince, processCalls]
  · cases hz : zk.zhandle <;> cases ht : zk.zk_timer.active <;> cases hp : zk.zk_io.active <;>
      simp [hz, ht, hp, uv_timer_stop, uv_poll_stop, Unref, DoEmitClose, DoEmit,
        ZooKeeper.record, effectsSince, processCalls]

theorem yield_grows (zk : ZooKeeper) (now : Int) (q : InterestOracle) :
    GrowsWithoutProcess zk (yield zk now q) := by
  apply GrowsWithoutProcess_of_drop
  unfold yield
  split
  · simp [effectsSince, processCalls]
  · cases hp : zk.zk_io.active <;> by_cases hrc : (q zk.zhandle).rc = 0 <;>
      by_cases hfd : (q zk.zhandle).fd = -1 <;>
      simp [hp, hrc, hfd, uv_poll_stop, uv_poll_init, uv_poll_start, uv_timer_start,
        ZooKeeper.record, effectsSince, processCalls]

theorem record_emit_grows (zk : ZooKeeper) (name : String) (data : JsValue) :
    GrowsWithoutProcess zk (zk.record (.emit name data)) :=
  ⟨[.emit name data], rfl, rfl⟩

theorem main_watcher_grows (zk : ZooKeeper) (ev : WatcherEvent) :
    GrowsWithoutProcess zk (main_watcher zk ev) := by
  unfold main_watcher
  repeat' split
  all_goals first
    | exact realClose_grows zk _
    | exact GrowsWithoutProcess_refl zk
    | (rw [DoEmitPath_eq]; exact record_emit_grows _ _ _)

theorem foldl_main_watcher_grows (evs : List WatcherEvent) (zk : ZooKeeper) :
    GrowsWithoutProcess zk (evs.foldl main_watcher zk) := by
  induction evs generalizing zk with
  | nil => exact GrowsWithoutProcess_refl zk
  | cons ev rest ih =>
    exact GrowsWithoutProcess_trans _ _ _ (main_watcher_grows zk ev) (ih _)

theorem io_events_flags (status revents : Int) :
    (status < 0 →
        io_events status revents = ZOOKEEPER_READ + ZOOKEEPER_WRITE
        ∧ HasFlag (io_events status revents) ZOOKEEPER_READ
        ∧ HasFlag (io_events status revents) ZOOKEEPER_WRITE)
    ∧ (0 ≤ status →
        (HasFlag (io_events status revents) ZOOKEEPER_READ ↔ HasFlag revents UV_READABLE)
        ∧ (HasFlag (io_events status revents) ZOOKEEPER_WRITE ↔ HasFlag revents UV_WRITABLE))
    ∧ io_events status revents
        ∈ [0, ZOOKEEPER_READ, ZOOKEEPER_WRITE, ZOOKEEPER_READ + ZOOKEEPER_WRITE] := by
  unfold io_events
  by_cases hs : status < 0
  · rw [if_pos hs]
    exact ⟨fun _ => by decide, fun h => absurd hs (by omega), by decide⟩
  · rw [if_neg hs]
    refine ⟨fun h => absurd h hs, fun _ => ?_, ?_⟩ <;>
      by_cases hr : int_and revents UV_READABLE = 0 <;>
      by_cases hw : int_and revents UV_WRITABLE = 0 <;>
      simp only [HasFlag, ne_eq, hr, hw, not_true_eq_false, not_false_eq_true, if_true,
        if_false] <;> decide

/-- C17: for every reactor callback `zk_io_cb (status, revents)`: if `status < 0` the
events fed to `zookeeper_process` are exactly read and write, whatever `revents` is;
otherwise they contain read iff `revents` has readable, write iff `revents` has
writable, and never anything else.  In both cases `zookeeper_process` is called exactly
once, with the session's handle and those events, the result does not depend on the code
it returns, and `yield` runs afterwards on the session as the processing left it (on a
session still open, the next call logged is `zookeeper_interest`). -/
theorem zk_io_cb_feeds_events (zk : ZooKeeper) (status revents : Int) (p : ProcessReply)
    (now : Int) (q : InterestOracle) :
    (status < 0 →
        io_events status revents = ZOOKEEPER_READ + ZOOKEEPER_WRITE
        ∧ HasFlag (io_events status revents) ZOOKEEPER_READ
        ∧ HasFlag (io_events status revents) ZOOKEEPER_WRITE)
    ∧ (0 ≤ status →
        (HasFlag (io_events status revents) ZOOKEEPER_READ ↔ HasFlag revents UV_READABLE)
        ∧ (HasFlag (io_events status revents) ZOOKEEPER_WRITE ↔ HasFlag revents UV_WRITABLE))
    ∧ io_events status revents
        ∈ [0, ZOOKEEPER_READ, ZOOKEEPER_WRITE, ZOOKEEPER_READ + ZOOKEEPER_WRITE]
    ∧ processCalls (effectsSince zk (zk_io_cb zk status revents p now q))
        = [(zk.zhandle, io_events status revents)]
    ∧ (∀ rc2 : Int,
        zk_io_cb zk status revents { rc := rc2, delivered := p.delivered } now q
          = zk_io_cb zk status revents p now q)
    ∧ (∃ mid X,
        mid.log = zk.log ++ Effect.zookeeper_process zk.zhandle (io_events status revents) :: X
        ∧ processCalls X = []
        ∧ zk_io_cb zk status revents p now q = yield mid now q
        ∧ (mid.is_closed = false →
            ∃ Y, effectsSince mid (yield mid now q)
              = Effect.zookeeper_interest mid.zhandle :: Y)) := by
  obtain ⟨f1, f2, f3⟩ := io_events_flags status revents
  obtain ⟨X, hX, pX⟩ := foldl_main_watcher_grows p.delivered
    (zk.record (.zookeeper_process zk.zhandle (io_events status revents)))
  obtain ⟨Y, hY, pY⟩ := yield_grows
    (p.delivered.foldl main_watcher
      (zk.record (.zookeeper_process zk.zhandle (io_events status revents)))) now q
  refine ⟨f1, f2, f3, ?_, fun _ => rfl, ?_⟩
  · have hlog : (zk_io_cb zk status revents p now q).log
        = zk.log ++ (Effect.zookeeper_process zk.zhandle (io_events status revents) :: X ++ Y) := by
      show (yield _ now q).log = _
      rw [hY, hX]
      simp
    rw [effectsSince_of_append _ _ _ hlog]
    simp only [processCalls, List.filterMap_append, List.filterMap_cons] at pX pY ⊢
    rw [pX, pY]
    rfl
  · refine ⟨_, X, ?_, pX, rfl, ?_⟩
    · rw [hX]; simp
    · intro hopen
      generalize p.delivered.foldl main_watcher
        (zk.record (.zookeeper_process zk.zhandle (io_events status revents))) = mid at hopen ⊢
      cases hp : mid.zk_io.active <;> by_cases hrc : (q mid.zhandle).rc = 0 <;>
        by_cases hfd : (q mid.zhandle).fd = -1 <;>
        simp [yield, hopen, hp, hrc, hfd, uv_poll_stop, uv_poll_init, uv_poll_start,
          uv_timer_start, ZooKeeper.record, effectsSince]

theorem zk_io_cb_feeds_events_witness :
    ((-1 : Int) < 0)
    ∧ io_events (-1) 0 = ZOOKEEPER_READ + ZOOKEEPER_WRITE
    ∧ processCalls (effectsSince openSession
          (zk_io_cb openSession (-1) 0 { rc := -4, delivered := [] } 10 sampleInterest))
        = [(openSession.zhandle, io_events (-1) 0)] :=
  have h := zk_io_cb_feeds_events openSession (-1) 0 { rc := -4, delivered := [] } 10
    sampleInterest
  ⟨by decide, (h.1 (by decide)).1, h.2.2.2.1⟩

/-! ### The timer callback -/

theorem timer_deadline_nonneg (zk : ZooKeeper)
    (ha : 0 ≤ zk.last_activity + 1000 * zk.tv.tv_sec) (hu : 0 ≤ zk.tv.tv_usec) :
    timer_deadline zk = zk.last_activity + millisOf zk.tv := by
  unfold timer_deadline millisOf
  rw [Int.tdiv_eq_ediv (by nlinarith) (by norm_num)]
  omega

theorem zk_timer_cb_elapsed (zk : ZooKeeper) (now : Int) (q : InterestOracle)
    (h : timer_deadline zk < now) : zk_timer_cb zk now q = yield zk now q := by
  simp [zk_timer_cb, h]

theorem zk_timer_cb_rearm (zk : ZooKeeper) (now : Int) (q : InterestOracle)
    (h : now ≤ timer_deadline zk) :
    zk_timer_cb zk now q
      = uv_timer_start zk (timer_deadline zk - now + 1) (timer_deadline zk - now + 1) := by
  have hn : ¬ timer_deadline zk < now := by omega
  simp [zk_timer_cb, hn]

theorem yield_open_queries (zk : ZooKeeper) (now : Int) (q : InterestOracle)
    (hc : zk.is_closed = false) :
    Effect.zookeeper_interest zk.zhandle ∈ effectsSince zk (yield zk now q) := by
  cases hp : zk.zk_io.active <;> by_cases hrc : (q zk.zhandle).rc = 0 <;>
    by_cases hfd : (q zk.zhandle).fd = -1 <;>
    simp [yield, hc, hp, hrc, hfd, uv_poll_stop, uv_poll_init, uv_poll_start,
      uv_timer_start, ZooKeeper.record, effectsSince]

/-- C18, as the claim states it, fails: on `openSession` the deadline
`last_activity + timeout_ms` is 6666; when the timer fires at `now = 6666`, exactly the
deadline, `zk_timer_cb` does not run `yield`: it only restarts the timer, for one
millisecond. -/
theorem zk_timer_cb_rearms_at_deadline :
    openSession.is_closed = false
    ∧ openSession.last_activity + millisOf openSession.tv = 6666
    ∧ timer_deadline openSession = 6666
    ∧ effectsSince openSession (zk_timer_cb openSession 6666 sampleInterest)
        = [Effect.uv_timer_start 1 1]
    ∧ Effect.zookeeper_interest openSession.zhandle
        ∉ effectsSince openSession (zk_timer_cb openSession 6666 sampleInterest)
    ∧ zk_timer_cb openSession 6666 sampleInterest ≠ yield openSession 6666 sampleInterest := by
  decide

/-- C18, amended: `zk_timer_cb` runs `yield` exactly when the deadline
`last_activity + timeout_ms` is strictly before `now`; when the deadline is `now` or
later, equality included, it restarts the timer and does not run `yield`.  So on an open
session `zookeeper_interest` is queried by the callback iff `deadline < now`. -/
theorem zk_timer_cb_reconciles_iff (zk : ZooKeeper) (now : Int) (q : InterestOracle)
    (hc : zk.is_closed = false) :
    (timer_deadline zk < now → zk_timer_cb zk now q = yield zk now q)
    ∧ (now ≤ timer_deadline zk →
        effectsSince zk (zk_timer_cb zk now q)
          = [Effect.uv_timer_start (timer_deadline zk - now + 1)
              (timer_deadline zk - now + 1)])
    ∧ (Effect.zookeeper_interest zk.zhandle ∈ effectsSince zk (zk_timer_cb zk now q)
        ↔ timer_deadline zk < now)
    ∧ (0 ≤ zk.last_activity + 1000 * zk.tv.tv_sec → 0 ≤ zk.tv.tv_usec →
        timer_deadline zk = zk.last_activity + millisOf zk.tv) := by
  have hre : now ≤ timer_deadline zk →
      effectsSince zk (zk_timer_cb zk now q)
        = [Effect.uv_timer_start (timer_deadline zk - now + 1)
            (timer_deadline zk - now + 1)] := by
    intro h
    rw [zk_timer_cb_rearm zk now q h]
    simp [uv_timer_start, effectsSince]
  refine ⟨zk_timer_cb_elapsed zk now q, hre, ?_, timer_deadline_nonneg zk⟩
  constructor
  · intro hmem
    by_contra hn
    rw [hre (by omega)] at hmem
    simp at hmem
  · intro h
    rw [zk_timer_cb_elapsed zk now q h]
    exact yield_open_queries zk now q hc

theorem zk_timer_cb_reconciles_iff_witness :
    openSession.is_closed = false
    ∧ (timer_deadline openSession < 7000 →
        zk_timer_cb openSession 7000 sampleInterest = yield openSession 7000 sampleInterest)
    ∧ (Effect.zookeeper_interest openSession.zhandle
          ∈ effectsSince openSession (zk_timer_cb openSession 7000 sampleInterest)
        ↔ timer_deadline openSession < 7000) :=
  have h := zk_timer_cb_reconciles_iff openSession 7000 sampleInterest (by decide)
  ⟨by decide, h.1, h.2.2.1⟩

/-- C19: whenever `zk_timer_cb` takes the rearm branch (the deadline is not before
`now`, so `yield` is not run), it restarts the timer with timeout and repeat interval
both `deadline - now + 1` milliseconds, where the deadline is
`last_activity + timeout_ms`; that value is at least 1, never zero or negative, and the
restart is the only call made. -/
theorem zk_timer_cb_rearm_delay (zk : ZooKeeper) (now : Int) (q : InterestOracle)
    (h : now ≤ timer_deadline zk) :
    (zk_timer_cb zk now q).zk_timer
        = { active := true, timeout := timer_deadline zk - now + 1,
            interval := timer_deadline zk - now + 1 }
    ∧ 1 ≤ timer_deadline zk - now + 1
    ∧ effectsSince zk (zk_timer_cb zk now q)
        = [Effect.uv_timer_start (timer_deadline zk - now + 1) (timer_deadline zk - now + 1)]
    ∧ (0 ≤ zk.last_activity + 1000 * zk.tv.tv_sec → 0 ≤ zk.tv.tv_usec →
        timer_deadline zk - now + 1 = (zk.last_activity + millisOf zk.tv - now) + 1) := by
  rw [zk_timer_cb_rearm zk now q h]
  refine ⟨rfl, by omega, by simp [uv_timer_start, effectsSince], fun ha hu => ?_⟩
  rw [timer_deadline_nonneg zk ha hu]

theorem zk_timer_cb_rearm_delay_witness :
    (6000 : Int) ≤ timer_deadline openSession
    ∧ (zk_timer_cb openSession 6000 sampleInterest).zk_timer
        = { active := true, timeout := 667, interval := 667 }
    ∧ 1 ≤ timer_deadline openSession - 6000 + 1 :=
  have hd : (6000 : Int) ≤ timer_deadline openSession := by decide
  have h := zk_timer_cb_rearm_delay openSession 6000 sampleInterest hd
  ⟨hd, h.1, h.2.1⟩

/-! ### Password decoding and letter case -/

theorem upperHexDigits_pair : ∀ h ∈ upperHexDigits, ∀ l ∈ upperHexDigits,
    fourBitsToHex ((hexToUchar h l &&& 0xf0) >>> 4) = h
    ∧ fourBitsToHex (hexToUchar h l &&& 0x0f) = l
    ∧ hexToUchar h l = 16 * (hexDigitValue h).getD 0 + (hexDigitValue l).getD 0 := by
  decide

theorem hexToFourBits_of_value_toNat (c : Char) (v : Nat) (h : hexDigitValue c = some v) :
    v < 16 ∧ hexToFourBits c = if 97 ≤ c.toNat ∧ c.toNat ≤ 102 then v + 32 else v := by
  unfold hexDigitValue at h
  unfold hexToFourBits charValue oneByte
  generalize c.toNat = n at h ⊢
  split_ifs at h ⊢ <;> simp at h <;> omega

theorem hexToFourBits_of_value (c : Char) (v : Nat) (h : hexDigitValue c = some v) :
    v < 16 ∧ hexToFourBits c = if IsLowerHexLetter c then v + 32 else v := by
  obtain ⟨hv, he⟩ := hexToFourBits_of_value_toNat c v h
  refine ⟨hv, ?_⟩
  by_cases p : IsLowerHexLetter c
  · rw [if_pos p]
    rw [if_pos (show 97 ≤ c.toNat ∧ c.toNat ≤ 102 from p)] at he
    exact he
  · rw [if_neg p]
    rw [if_neg (show ¬ (97 ≤ c.toNat ∧ c.toNat ≤ 102) from p)] at he
    exact he

theorem nibbles_combine (vh vl : Nat) (hh : vh < 16) (hl : vl < 16) :
    ((vh <<< 4) ||| vl) % 256 = 16 * vh + vl
    ∧ (((vh + 32) <<< 4) ||| vl) % 256 = 16 * vh + vl
    ∧ ((vh <<< 4) ||| (vl + 32)) % 256 = (16 * vh + vl) ||| 0x20
    ∧ (((vh + 32) <<< 4) ||| (vl + 32)) % 256 = (16 * vh + vl) ||| 0x20 := by
  interval_cases vh <;> interval_cases vl <;> decide

theorem hexToUchar_of_values (h l : Char) (vh vl : Nat) (hh : hexDigitValue h = some vh)
    (hl : hexDigitValue l = some vl) :
    hexToUchar h l
      = if IsLowerHexLetter l then (16 * vh + vl) ||| 0x20 else 16 * vh + vl := by
  obtain ⟨bh, eh⟩ := hexToFourBits_of_value h vh hh
  obtain ⟨bl, el⟩ := hexToFourBits_of_value l vl hl
  obtain ⟨c1, c2, c3, c4⟩ := nibbles_combine vh vl bh bl
  unfold hexToUchar
  rw [eh, el]
  by_cases ph : IsLowerHexLetter h <;> by_cases pl : IsLowerHexLetter l <;>
    simp only [ph, pl, if_true, if_false] <;> assumption

theorem getD_mem_of_lt {α : Type} (s : List α) (k : Nat) (d : α) (hk : k < s.length) :
    s.getD k d ∈ s := by
  have : s.getD k d = s[k] := by
    simp [List.getD_eq_getElem?_getD, List.getElem?_eq_getElem hk]
  rw [this]
  exact List.getElem_mem hk

theorem HexStringToPassword_upper (s : List Char) (hlen : s.length = 32)
    (hup : ∀ c ∈ s, c ∈ upperHexDigits) :
    HexStringToPassword s = standardHexDecode s
    ∧ PasswordToHexString (HexStringToPassword s) = s := by
  have hpair : ∀ i, i < 16 →
      fourBitsToHex ((hexToUchar (s.getD (2 * i) (Char.ofNat 0))
          (s.getD (2 * i + 1) (Char.ofNat 0)) &&& 0xf0) >>> 4) = s.getD (2 * i) (Char.ofNat 0)
      ∧ fourBitsToHex (hexToUchar (s.getD (2 * i) (Char.ofNat 0))
          (s.getD (2 * i + 1) (Char.ofNat 0)) &&& 0x0f) = s.getD (2 * i + 1) (Char.ofNat 0)
      ∧ hexToUchar (s.getD (2 * i) (Char.ofNat 0)) (s.getD (2 * i + 1) (Char.ofNat 0))
        = 16 * (hexDigitValue (s.getD (2 * i) (Char.ofNat 0))).getD 0
          + (hexDigitValue (s.getD (2 * i + 1) (Char.ofNat 0))).getD 0 := by
    intro i hi
    exact upperHexDigits_pair _ (hup _ (getD_mem_of_lt s _ _ (by omega))) _
      (hup _ (getD_mem_of_lt s _ _ (by omega)))
  have hd : ∀ k, k < 32 → ∀ d1 d2 : Char, s.getD k d1 = s.getD k d2 := by
    intro k hk d1 d2
    have hk2 : k < s.length := by omega
    simp [List.getD_eq_getElem?_getD, List.getElem?_eq_getElem hk2]
  have hN : NanAsciiString s = s :=
    NanAsciiString_of_bytes s (fun c hc => upperHexDigits_lt c (hup c hc))
  constructor
  · unfold HexStringToPassword standardHexDecode
    rw [hN]
    apply List.map_congr_left
    intro i hi
    have hi16 : i < 16 := by simpa [ZOOKEEPER_PASSWORD_BYTE_COUNT] using hi
    rw [(hpair i hi16).2.2, hd (2 * i) (by omega) '0' (Char.ofNat 0),
      hd (2 * i + 1) (by omega) '0' (Char.ofNat 0)]
  · apply List.ext_getElem
    · rw [PasswordToHexString_length, hlen]
    · intro k h1 h2
      have hk : k < 32 := by omega
      have hi : k / 2 < 16 := by omega
      obtain ⟨e0, e1⟩ := PasswordToHexString_getD (HexStringToPassword s) (k / 2) hi
      have hp : (HexStringToPassword s).getD (k / 2) 0
          = hexToUchar (s.getD (2 * (k / 2)) (Char.ofNat 0))
              (s.getD (2 * (k / 2) + 1) (Char.ofNat 0)) := by
        simp [HexStringToPassword, hN, ZOOKEEPER_PASSWORD_BYTE_COUNT,
          List.getD_eq_getElem?_getD, hi]
      rw [hp] at e0 e1
      rw [(hpair (k / 2) hi).1] at e0
      rw [(hpair (k / 2) hi).2.1] at e1
      have g1 : ∀ j (hj : j < (PasswordToHexString (HexStringToPassword s)).length),
          (PasswordToHexString (HexStringToPassword s)).getD j (Char.ofNat 0)
            = (PasswordToHexString (HexStringToPassword s))[j] := by
        intro j hj
        simp [List.getD_eq_getElem?_getD, List.getElem?_eq_getElem hj]
      have g2 : ∀ j (hj : j < s.length), s.getD j (Char.ofNat 0) = s[j] := by
        intro j hj
        simp [List.getD_eq_getElem?_getD, List.getElem?_eq_getElem hj]
      rcases Nat.mod_two_eq_zero_or_one k with hm | hm
      · have hk2 : 2 * (k / 2) = k := by omega
        rw [hk2, g1 k h1, g2 k h2] at e0
        exact e0
      · have hk2 : 2 * (k / 2) + 1 = k := by omega
        rw [hk2, g1 k h1, g2 k h2] at e1
        exact e1

/-- C20: password decoding is sensitive to letter case and validates nothing.  For every
pair of hexadecimal digit characters `(h, l)` of either case, `hexToUchar` yields
`16 * value h + value l` with the bit `0x20` set in addition if `l` is a lower-case
letter `a`-`f`, and exactly `16 * value h + value l` otherwise.  Hence
`HexStringToPassword` agrees with standard base-16 decoding on every 32-character string
over `0`-`9`, `A`-`F`, and `PasswordToHexString` inverts it there; it does not agree on
every lower-case string: the pair `1a` decodes to `0x3A`, not `0x1A`. -/
theorem password_decoding_case_sensitive :
    (∀ (h l : Char) (vh vl : Nat), hexDigitValue h = some vh → hexDigitValue l = some vl →
        hexToUchar h l
          = if IsLowerHexLetter l then (16 * vh + vl) ||| 0x20 else 16 * vh + vl)
    ∧ (∀ s : List Char, s.length = 32 → (∀ c ∈ s, c ∈ upperHexDigits) →
        HexStringToPassword s = standardHexDecode s
        ∧ PasswordToHexString (HexStringToPassword s) = s)
    ∧ hexToUchar '1' 'a' = 0x3A
    ∧ (lowerCasePassword.length = 32
        ∧ (∀ c ∈ lowerCasePassword, c ∈ lowerHexDigits)
        ∧ standardHexDecode lowerCasePassword = List.replicate 16 0x1A
        ∧ HexStringToPassword lowerCasePassword = List.replicate 16 0x3A
        ∧ HexStringToPassword lowerCasePassword ≠ standardHexDecode lowerCasePassword) :=
  ⟨hexToUchar_of_values, HexStringToPassword_upper, by decide, by decide, by decide,
    by decide, by decide, by decide⟩

theorem password_decoding_case_sensitive_witness :
    upperCasePassword.length = 32
    ∧ (∀ c ∈ upperCasePassword, c ∈ upperHexDigits)
    ∧ HexStringToPassword upperCasePassword = standardHexDecode upperCasePassword
    ∧ PasswordToHexString (HexStringToPassword upperCasePassword) = upperCasePassword
    ∧ hexToUchar 'b' 'C' = 16 * 11 + 12 :=
  have hl : upperCasePassword.length = 32 := by decide
  have hu : ∀ c ∈ upperCasePassword, c ∈ upperHexDigits := by decide
  have h := password_decoding_case_sensitive
  have hv := h.1 'b' 'C' 11 12 (by decide) (by decide)
  ⟨hl, hu, (h.2.1 upperCasePassword hl hu).1, (h.2.1 upperCasePassword hl hu).2, hv⟩

/-! ### Close before init -/

theorem realClose_uninitialised (zk : ZooKeeper) (code : Int) (hz : zk.zhandle = none)
    (hq : Quiet zk) :
    (realClose zk code).log = zk.log
    ∧ (realClose zk code).is_closed = true
    ∧ (realClose zk code).zhandle = none
    ∧ (realClose zk code).refs = zk.refs
    ∧ Quiet (realClose zk code) := by
  obtain ⟨q1, q2⟩ := hq
  cases hc : zk.is_closed <;> simp [realClose, hc, hz, q1, q2, Quiet]

theorem Init_on_closed (zk : ZooKeeper) (o : InitObject) (zh : Nat) (now : Int)
    (q : InterestOracle) (hc : zk.is_closed = true) (hok : ¬ ConfigError o) :
    (Init zk (.object o) (some zh) now q).1 = .returnedThis
    ∧ (Init zk (.object o) (some zh) now q).2.log
        = zk.log ++ [Effect.zoo_set_debug_level o.debug_level,
            Effect.zoo_deterministic_conn_order o.host_order_deterministic,
            Effect.zookeeper_init o.connect (effectiveTimeout o) (suppliedClient o),
            Effect.Ref, Effect.uv_timer_init]
    ∧ (Init zk (.object o) (some zh) now q).2.is_closed = true
    ∧ (Init zk (.object o) (some zh) now q).2.zhandle = some zh
    ∧ (Init zk (.object o) (some zh) now q).2.refs = zk.refs + 1
    ∧ (Init zk (.object o) (some zh) now q).2.zk_io = zk.zk_io
    ∧ (Init zk (.object o) (some zh) now q).2.zk_timer.active = false := by
  obtain ⟨dl, hod, conn, tmo, cid, cpw⟩ := o
  cases cid with
  | none =>
    cases cpw with
    | some pw => exact absurd (Or.inl (by simp)) hok
    | none =>
      simp [Init, realInit, yield, hc, Ref, uv_timer_init, ZooKeeper.record, effectiveTimeout,
        suppliedClient]
  | some id =>
    cases cpw with
    | none => exact absurd (Or.inl (by simp)) hok
    | some pw =>
      have hlen : pw.length = 32 := by
        by_contra hne
        exact hok (Or.inr ⟨id, pw, rfl, rfl, hne⟩)
      simp [Init, realInit, yield, hc, hlen, Ref, uv_timer_init, ZooKeeper.record,
        effectiveTimeout, suppliedClient, ZOOKEEPER_PASSWORD_BYTE_COUNT]

theorem NoRelease_nil : NoRelease [] :=
  ⟨rfl, rfl, rfl⟩

theorem NoRelease_append (X Y : List Effect) (hX : NoRelease X) (hY : NoRelease Y) :
    NoRelease (X ++ Y) := by
  obtain ⟨a1, a2, a3⟩ := hX
  obtain ⟨b1, b2, b3⟩ := hY
  unfold NoRelease closeNotifications handleReleases unrefCalls at *
  rw [List.filterMap_append, List.filterMap_append, List.count_append, a1, a2, a3, b1, b2, b3]
  exact ⟨rfl, rfl, rfl⟩

theorem Leaked_extend (origin : ZooKeeper) (zh : Nat) (refs : Int) (a b : ZooKeeper)
    (Y : List Effect) (ha : Leaked origin zh refs a) (hlog : b.log = a.log ++ Y)
    (hY : NoRelease Y) (hc : b.is_closed = a.is_closed) (hz : b.zhandle = a.zhandle)
    (hr : b.refs = a.refs) (hio : b.zk_io = a.zk_io) (ht : b.zk_timer = a.zk_timer) :
    Leaked origin zh refs b := by
  obtain ⟨c1, c2, c3, ⟨q1, q2⟩, X, hX, nX⟩ := ha
  refine ⟨by rw [hc, c1], by rw [hz, c2], by rw [hr, c3], ⟨by rw [hio, q1], by rw [ht, q2]⟩,
    X ++ Y, by rw [hlog, hX, List.append_assoc], NoRelease_append X Y nX hY⟩

theorem Leaked_main_watcher (origin : ZooKeeper) (zh : Nat) (refs : Int) (zk : ZooKeeper)
    (ev : WatcherEvent) (h : Leaked origin zh refs zk) :
    Leaked origin zh refs (main_watcher zk ev) := by
  have hc : zk.is_closed = true := h.1
  have hemit : ∀ (z : ZooKeeper) (name : String) (path : Option String),
      z.log = zk.log → z.is_closed = zk.is_closed → z.zhandle = zk.zhandle →
      z.refs = zk.refs → z.zk_io = zk.zk_io → z.zk_timer = zk.zk_timer → name ≠ on_closed →
      Leaked origin zh refs (DoEmitPath z name path) := by
    intro z name path e1 e2 e3 e4 e5 e6 hn
    rw [DoEmitPath_eq]
    refine Leaked_extend origin zh refs zk _ [.emit name (pathOrUndefined path)] h
      (by simp [e1]) ?_ e2 e3 e4 e5 e6
    exact ⟨by simp [closeNotifications, hn], rfl, rfl⟩
  unfold main_watcher
  repeat' split
  all_goals first
    | (rw [realClose_of_closed zk _ hc]; exact h)
    | exact h
    | exact hemit _ _ _ rfl rfl rfl rfl rfl rfl (by decide)

theorem Leaked_of_ReachableWithoutInit (origin : ZooKeeper) (zh : Nat) (refs : Int)
    (start zk : ZooKeeper) (hs : Leaked origin zh refs start)
    (h : ReachableWithoutInit start zk) : Leaked origin zh refs zk := by
  induction h with
  | start => exact hs
  | close zk code _ ih =>
    rw [realClose_of_closed zk code ih.1]
    exact ih
  | yield zk now q _ ih =>
    rw [yield_of_closed zk now q ih.1]
    exact ih
  | io zk status revents p now q _ ha ih =>
    have := ih.2.2.2.1.1
    rw [ha] at this
    cases this
  | timer zk now q _ ha ih =>
    have := ih.2.2.2.1.2
    rw [ha] at this
    cases this
  | watcher zk ev _ ih => exact Leaked_main_watcher origin zh refs zk ev ih

/-- C21: `close` on a session that was never initialised (no handle, nothing armed) logs
nothing, so no `close` notification, but marks the session closed.  If `init` then
succeeds on it, `zookeeper_init` is called, the handle it returns is installed and `Ref`
is called, yet `yield` returns at once: neither `zookeeper_interest` is queried nor the
poll watcher or the timer armed.  In every state reachable from there without another
`init`, by `close`, `yield`, the reactor callbacks and `main_watcher` events, the session
is still closed, still holds that handle and that reference, has nothing armed, and
since the first `close` no `close` notification, no `zookeeper_close` and no `Unref` has
been logged; every later `close` and every later `yield` returns the session
unchanged. -/
theorem close_before_init_leaks (zk : ZooKeeper) (code : Int) (o : InitObject) (zh : Nat)
    (now : Int) (q : InterestOracle) (hz : zk.zhandle = none) (hq : Quiet zk)
    (hok : ¬ ConfigError o) :
    effectsSince zk (realClose zk code) = []
    ∧ (realClose zk code).is_closed = true
    ∧ (Init (realClose zk code) (.object o) (some zh) now q).1 = .returnedThis
    ∧ (Init (realClose zk code) (.object o) (some zh) now q).2.zhandle = some zh
    ∧ (Init (realClose zk code) (.object o) (some zh) now q).2.refs = zk.refs + 1
    ∧ effectsSince (realClose zk code) (Init (realClose zk code) (.object o) (some zh) now q).2
        = [Effect.zoo_set_debug_level o.debug_level,
           Effect.zoo_deterministic_conn_order o.host_order_deterministic,
           Effect.zookeeper_init o.connect (effectiveTimeout o) (suppliedClient o),
           Effect.Ref, Effect.uv_timer_init]
    ∧ ∀ z, ReachableWithoutInit (Init (realClose zk code) (.object o) (some zh) now q).2 z →
        z.is_closed = true ∧ z.zhandle = some zh ∧ z.refs = zk.refs + 1
        ∧ z.zk_io.active = false ∧ z.zk_timer.active = false
        ∧ NoRelease (effectsSince zk z)
        ∧ (∀ code2 : Int, realClose z code2 = z)
        ∧ (∀ (now2 : Int) (q2 : InterestOracle), yield z now2 q2 = z) := by
  obtain ⟨c1, c2, c3, c4, c5⟩ := realClose_uninitialised zk code hz hq
  obtain ⟨i1, i2, i3, i4, i5, i6, i7⟩ := Init_on_closed (realClose zk code) o zh now q c2 hok
  have hrel : NoRelease [Effect.zoo_set_debug_level o.debug_level,
      Effect.zoo_deterministic_conn_order o.host_order_deterministic,
      Effect.zookeeper_init o.connect (effectiveTimeout o) (suppliedClient o),
      Effect.Ref, Effect.uv_timer_init] :=
    ⟨rfl, rfl, by simp [unrefCalls]⟩
  have hleak : Leaked zk zh (zk.refs + 1)
      (Init (realClose zk code) (.object o) (some zh) now q).2 :=
    ⟨i3, i4, by rw [i5, c4], ⟨by rw [i6]; exact c5.1, i7⟩, _, by rw [i2, c1], hrel⟩
  refine ⟨effectsSince_of_append _ _ _ (by rw [c1]; simp), c2, i1, i4, by rw [i5, c4],
    effectsSince_of_append _ _ _ i2, fun z hr => ?_⟩
  obtain ⟨l1, l2, l3, ⟨l4, l5⟩, X, hX, nX⟩ :=
    Leaked_of_ReachableWithoutInit zk zh (zk.refs + 1) _ z hleak hr
  refine ⟨l1, l2, l3, l4, l5, ?_, fun code2 => realClose_of_closed z code2 l1,
    fun now2 q2 => yield_of_closed z now2 q2 l1⟩
  rw [effectsSince_of_append _ _ _ hX]
  exact nX

theorem close_before_init_leaks_witness :
    ZooKeeper.new.zhandle = none ∧ Quiet ZooKeeper.new
    ∧ effectsSince ZooKeeper.new (realClose ZooKeeper.new 0) = []
    ∧ (Init (realClose ZooKeeper.new 0) (.object plainInit) (some 7) 0 sampleInterest).1
        = .returnedThis
    ∧ (Init (realClose ZooKeeper.new 0) (.object plainInit) (some 7) 0 sampleInterest).2.zhandle
        = some 7
    ∧ (Init (realClose ZooKeeper.new 0) (.object plainInit) (some 7) 0 sampleInterest).2.refs
        = ZooKeeper.new.refs + 1 :=
  have hok : ¬ ConfigError plainInit := by
    rintro (h | ⟨id, pw, h1, -, -⟩)
    · exact h rfl
    · cases h1
  have h := close_before_init_leaks ZooKeeper.new 0 plainInit 7 0 sampleInterest rfl
    ⟨rfl, rfl⟩ hok
  ⟨rfl, ⟨rfl, rfl⟩, h.1, h.2.2.1, h.2.2.2.1, h.2.2.2.2.1⟩

end NodeZk
